import Mathlib

/-!
# Test-pod rail monitor (`test-pod-firmware/src/main.c`)

A shallow embedding of `test_pod_check`, the body of the firmware's main loop.
The function's `static` variables and the output register `PORTB` form the
state; the three values `read_adc()` would return and the level of the mode
pin `PINA7` are the inputs of one loop iteration.  Machine integers are
natural numbers, reduced modulo `2^w` wherever the C code stores into a
`w`-bit object.
-/

namespace TestPod

/-! ## Constants of `main.c` -/

def HIGH_THRESH_3v3 : Nat := 690
def LOW_THRESH_3v3 : Nat := 624
def HIGH_THRESH_5v : Nat := 1096
def LOW_THRESH_5v : Nat := 897
def HIGH_THRESH_VIO : Nat := 376
def LOW_THRESH_VIO : Nat := 340

/-- Number of ADC readings to average. -/
def ADC_READ_AVERAGES : Nat := 10

/-- The two ADC conversion constants `ADC_MV` and `ADC_BITS`.  They are defined in a
header that is not part of the sources at hand, so they are parameters here. -/
structure AdcConfig where
  ADC_MV : Nat
  ADC_BITS : Nat
deriving DecidableEq, Repr

/-! ## State and inputs -/

/-- The `static` variables of `test_pod_check` together with the output register. -/
structure State where
  status_field : Nat
  averageIndex : Nat
  averageBufferSQ0 : List Nat
  averageBufferSQ1 : List Nat
  averageBufferSQ2 : List Nat
  PORTB : Nat
deriving DecidableEq, Repr

/-- What the hardware presents during one loop iteration: the value `read_adc()` returns
with the multiplexer on each of the three rails, and the level of the mode pin. -/
structure Inputs where
  adcSQ0 : Nat
  adcSQ1 : Nat
  adcSQ2 : Nat
  PINA7 : Bool
deriving DecidableEq, Repr

/-- Zero-initialised statics; `PORTB` holds its reset value. -/
def initState : State :=
  { status_field := 0
    averageIndex := 0
    averageBufferSQ0 := List.replicate ADC_READ_AVERAGES 0
    averageBufferSQ1 := List.replicate ADC_READ_AVERAGES 0
    averageBufferSQ2 := List.replicate ADC_READ_AVERAGES 0
    PORTB := 0 }

/-! ## The per-rail block -/

/-- The C operator `~` applied to a value promoted to the 16-bit `int` of the target,
as a bit pattern. -/
def bnot16 (x : Nat) : Nat := x ^^^ 0xFFFF

/-- The 32-bit accumulator `adc_reading` after `i` rounds of the summation loop
`for (i = 0; i < ADC_READ_AVERAGES; i++) adc_reading += (uint32_t) buf[i];`, started at 0. -/
def accumulate (buf : List Nat) : Nat → Nat
  | 0 => 0
  | i + 1 => (accumulate buf i + buf.getD i 0) % 2 ^ 32

/-- The accumulator `adc_reading` when the summation loop exits. -/
def sumLoop (buf : List Nat) : Nat :=
  accumulate buf ADC_READ_AVERAGES

/-- The accumulator after `adc_reading /= ADC_READ_AVERAGES`. -/
def railAverage (buf : List Nat) : Nat :=
  sumLoop buf / ADC_READ_AVERAGES

/-- The accumulator after `adc_reading = adc_reading * ADC_MV` and
`adc_reading = adc_reading >> ADC_BITS` (both in 32 bits). -/
def railMillivolts (cfg : AdcConfig) (buf : List Nat) : Nat :=
  ((railAverage buf * cfg.ADC_MV) % 2 ^ 32) >>> cfg.ADC_BITS

/-- One of the three rail blocks of `test_pod_check` (lines 82-100, 105-123, 128-146),
which differ only in the buffer, the status mask and the two thresholds.  Returns the
rail's buffer and the status field after the block. -/
def railBlock (cfg : AdcConfig) (averageIndex : Nat) (buf : List Nat) (adc : Nat)
    (status_field mask high low : Nat) : List Nat × Nat :=
  if averageIndex < ADC_READ_AVERAGES then
    (buf.set averageIndex (adc % 2 ^ 16), status_field)
  else
    let adc_reading := railMillivolts cfg buf
    if adc_reading < high ∧ adc_reading > low then
      (buf, (status_field ||| mask) % 2 ^ 8)
    else
      (buf, (status_field &&& bnot16 mask) % 2 ^ 8)

/-- The increment of the shared index (lines 149-154). -/
def nextIndex (averageIndex : Nat) : Nat :=
  if averageIndex ≥ ADC_READ_AVERAGES then 0 else (averageIndex + 1) % 2 ^ 8

/-- The value written to `PORTB` (lines 157-161). -/
def portValue (status_field : Nat) (pina7 : Bool) : Nat :=
  if pina7 then (status_field &&& 0x7) % 2 ^ 8 else (bnot16 status_field &&& 0x7) % 2 ^ 8

/-- One call of `test_pod_check`. -/
def test_pod_check (cfg : AdcConfig) (inp : Inputs) (s : State) : State :=
  let r0 := railBlock cfg s.averageIndex s.averageBufferSQ0 inp.adcSQ0 s.status_field
    0x1 HIGH_THRESH_5v LOW_THRESH_5v
  let r1 := railBlock cfg s.averageIndex s.averageBufferSQ1 inp.adcSQ1 r0.2
    0x2 HIGH_THRESH_VIO LOW_THRESH_VIO
  let r2 := railBlock cfg s.averageIndex s.averageBufferSQ2 inp.adcSQ2 r1.2
    0x4 HIGH_THRESH_3v3 LOW_THRESH_3v3
  { status_field := r2.2
    averageIndex := nextIndex s.averageIndex
    averageBufferSQ0 := r0.1
    averageBufferSQ1 := r1.1
    averageBufferSQ2 := r2.1
    PORTB := portValue r2.2 inp.PINA7 }

/-- The main loop `while (1) test_pod_check();` run for as many iterations as there are
inputs in the list. -/
def run (cfg : AdcConfig) (s : State) : List Inputs → State
  | [] => s
  | inp :: rest => run cfg (test_pod_check cfg inp s) rest

/-! ## Start-up -/

/-- The calls `main` makes, in program order.  `adc_to_addr` and
`USI_TWI_Slave_Initialise` carry their argument; `test_pod_loop` stands for entering
`while (1) test_pod_check();`, which is never left. -/
inductive Call where
  | config_test_mode_pins
  | init_adc
  | read_adc
  | adc_to_addr (adc_val : Nat)
  | USI_TWI_Slave_Initialise (i2c_addr : Nat)
  | init_i2c_timer
  | sei
  | test_pod_loop
deriving DecidableEq, Repr

/-- The function `main` as the list of calls it makes.  The helper `adc_to_addr` lives in a
source file that is not at hand and is a parameter; `reading` is what the one-shot
`read_adc()` returns.  `adc_val` is a `uint16_t` and `i2c_addr` a `uint8_t`, both
initialised to 0. -/
def main (adc_to_addr : Nat → Nat) (reading : Nat) : List Call :=
  let adc_val := reading % 2 ^ 16
  let i2c_addr := if adc_val > 0 then adc_to_addr adc_val % 2 ^ 8 else 0
  [Call.config_test_mode_pins, Call.init_adc, Call.read_adc]
    ++ (if adc_val > 0 then [Call.adc_to_addr adc_val] else [])
    ++ (if i2c_addr > 0 then [Call.USI_TWI_Slave_Initialise i2c_addr] else [])
    ++ [Call.init_i2c_timer, Call.sei, Call.test_pod_loop]

/-- A window as the C types allow it: ten slots of 16 bits. -/
def WindowOk (buf : List Nat) : Prop :=
  buf.length = ADC_READ_AVERAGES ∧ ∀ x ∈ buf, x < 2 ^ 16

instance (buf : List Nat) : Decidable (WindowOk buf) :=
  inferInstanceAs (Decidable (buf.length = ADC_READ_AVERAGES ∧ ∀ x ∈ buf, x < 2 ^ 16))

/-- The truncated integer mean of a window, as a mathematical quantity. -/
def truncMean (buf : List Nat) : Nat := buf.sum / 10

/-! ## Concrete data used in the examples -/

/-- A configuration for the examples: 1100 mV full scale on a 10-bit converter. -/
def sampleConfig : AdcConfig := ⟨1100, 10⟩

/-- A state about to classify (index at `ADC_READ_AVERAGES`) with the given windows. -/
def readyState (b0 b1 b2 : List Nat) (sf : Nat) : State :=
  ⟨sf, ADC_READ_AVERAGES, b0, b1, b2, 0⟩

/-- A state about to record into slot `idx`, all windows zero. -/
def fillingState (idx sf : Nat) : State :=
  ⟨sf, idx, List.replicate 10 0, List.replicate 10 0, List.replicate 10 0, 0⟩

/-- The same three samples on every rail input, with the given pin level. -/
def constInput (a0 a1 a2 : Nat) (pin : Bool) : Inputs := ⟨a0, a1, a2, pin⟩

/-- An address map for the examples: readings below 512 have no address. -/
def sampleAddr (adc_val : Nat) : Nat := if adc_val < 512 then 0 else 0x30 + adc_val % 4

/-! ## Lemmas on the rail block -/

theorem railBlock_record (cfg : AdcConfig) (idx : Nat) (buf : List Nat) (adc sf mask high low : Nat)
    (h : idx < ADC_READ_AVERAGES) :
    railBlock cfg idx buf adc sf mask high low = (buf.set idx (adc % 2 ^ 16), sf) := by
  simp [railBlock, h]

theorem railBlock_classify_buf (cfg : AdcConfig) (idx : Nat) (buf : List Nat)
    (adc sf mask high low : Nat) (h : ADC_READ_AVERAGES ≤ idx) :
    (railBlock cfg idx buf adc sf mask high low).1 = buf := by
  have h' : ¬ idx < ADC_READ_AVERAGES := Nat.not_lt.mpr h
  simp only [railBlock, h', if_false]
  split <;> rfl

theorem testBit_bnot16_two_pow (b i : Nat) (hb : b < 16) :
    (bnot16 (2 ^ b)).testBit i = (decide (i < 16) && !decide (i = b)) := by
  have h16 : (0xFFFF : Nat) = 2 ^ 16 - 1 := by norm_num
  rw [bnot16, h16, Nat.testBit_xor, Nat.testBit_two_pow_sub_one, Nat.testBit_two_pow]
  by_cases h1 : i = b
  · subst h1; simp [hb]
  · have h2 : ¬ b = i := fun h => h1 h.symm
    simp [h1, h2]

/-- Bit `i` of the status field after a classifying rail block with mask `2 ^ b`. -/
theorem railBlock_classify_testBit (cfg : AdcConfig) (idx : Nat) (buf : List Nat)
    (adc sf high low b i : Nat) (hb : b < 8) (h : ADC_READ_AVERAGES ≤ idx) :
    (railBlock cfg idx buf adc sf (2 ^ b) high low).2.testBit i =
      if i = b then decide (railMillivolts cfg buf < high ∧ railMillivolts cfg buf > low)
      else (decide (i < 8) && sf.testBit i) := by
  have h' : ¬ idx < ADC_READ_AVERAGES := Nat.not_lt.mpr h
  have hb16 : b < 16 := by omega
  simp only [railBlock, h', if_false]
  by_cases hw : railMillivolts cfg buf < high ∧ railMillivolts cfg buf > low
  · rw [if_pos hw]
    simp only [Nat.testBit_mod_two_pow, Nat.testBit_or, Nat.testBit_two_pow]
    by_cases hi : i = b
    · subst hi; simp [hw, hb]
    · have h2 : ¬ b = i := fun h => hi h.symm
      simp [hi, h2]
  · rw [if_neg hw]
    simp only [Nat.testBit_mod_two_pow, Nat.testBit_and, testBit_bnot16_two_pow b i hb16]
    by_cases hi : i = b
    · subst hi; simp [hw]
    · simp only [hi, if_false, decide_False, Bool.not_false, Bool.and_true]
      by_cases h8 : i < 8
      · have : i < 16 := by omega
        simp [h8, this]
      · simp [h8]

/-- The status field after a classifying iteration, bit by bit. -/
theorem status_testBit_of_classify (cfg : AdcConfig) (inp : Inputs) (s : State) (i : Nat)
    (h : ADC_READ_AVERAGES ≤ s.averageIndex) :
    (test_pod_check cfg inp s).status_field.testBit i =
      if i = 0 then
        decide (railMillivolts cfg s.averageBufferSQ0 < HIGH_THRESH_5v ∧
          railMillivolts cfg s.averageBufferSQ0 > LOW_THRESH_5v)
      else if i = 1 then
        decide (railMillivolts cfg s.averageBufferSQ1 < HIGH_THRESH_VIO ∧
          railMillivolts cfg s.averageBufferSQ1 > LOW_THRESH_VIO)
      else if i = 2 then
        decide (railMillivolts cfg s.averageBufferSQ2 < HIGH_THRESH_3v3 ∧
          railMillivolts cfg s.averageBufferSQ2 > LOW_THRESH_3v3)
      else (decide (i < 8) && s.status_field.testBit i) := by
  have e0 := railBlock_classify_testBit cfg s.averageIndex s.averageBufferSQ0 inp.adcSQ0
    s.status_field HIGH_THRESH_5v LOW_THRESH_5v 0
  have e1 := railBlock_classify_testBit cfg s.averageIndex s.averageBufferSQ1 inp.adcSQ1
    (railBlock cfg s.averageIndex s.averageBufferSQ0 inp.adcSQ0 s.status_field
      0x1 HIGH_THRESH_5v LOW_THRESH_5v).2 HIGH_THRESH_VIO LOW_THRESH_VIO 1
  have e2 := railBlock_classify_testBit cfg s.averageIndex s.averageBufferSQ2 inp.adcSQ2
    (railBlock cfg s.averageIndex s.averageBufferSQ1 inp.adcSQ1
      (railBlock cfg s.averageIndex s.averageBufferSQ0 inp.adcSQ0 s.status_field
        0x1 HIGH_THRESH_5v LOW_THRESH_5v).2 0x2 HIGH_THRESH_VIO LOW_THRESH_VIO).2
    HIGH_THRESH_3v3 LOW_THRESH_3v3 2
  have p0 : (2 : Nat) ^ 0 = 0x1 := by norm_num
  have p1 : (2 : Nat) ^ 1 = 0x2 := by norm_num
  have p2 : (2 : Nat) ^ 2 = 0x4 := by norm_num
  rw [p0] at e0
  rw [p1] at e1
  rw [p2] at e2
  show (railBlock cfg s.averageIndex s.averageBufferSQ2 inp.adcSQ2
    (railBlock cfg s.averageIndex s.averageBufferSQ1 inp.adcSQ1
      (railBlock cfg s.averageIndex s.averageBufferSQ0 inp.adcSQ0 s.status_field
        0x1 HIGH_THRESH_5v LOW_THRESH_5v).2 0x2 HIGH_THRESH_VIO LOW_THRESH_VIO).2
    0x4 HIGH_THRESH_3v3 LOW_THRESH_3v3).2.testBit i = _
  rw [e2 i (by norm_num) h]
  by_cases h2 : i = 2
  · subst h2; simp
  · rw [if_neg h2, e1 i (by norm_num) h]
    by_cases h1 : i = 1
    · subst h1; simp
    · rw [if_neg h1, e0 i (by norm_num) h]
      by_cases h0 : i = 0
      · subst h0; simp
      · simp [h0, h1, h2]

/-- A recording iteration leaves the status field as it is. -/
theorem status_of_record (cfg : AdcConfig) (inp : Inputs) (s : State)
    (h : s.averageIndex < ADC_READ_AVERAGES) :
    (test_pod_check cfg inp s).status_field = s.status_field := by
  simp [test_pod_check, railBlock_record, h]

/-! ## Lemmas on the averaging arithmetic -/

theorem sum_take_succ (l : List Nat) (i : Nat) :
    (l.take (i + 1)).sum = (l.take i).sum + l.getD i 0 := by
  induction l generalizing i with
  | nil => simp
  | cons a t ih =>
    cases i with
    | zero => simp
    | succ j =>
      simp only [List.take_succ_cons, List.sum_cons, List.getD_cons_succ]
      rw [ih j]; omega

theorem getD_lt_of_forall (l : List Nat) (i : Nat) (h : ∀ x ∈ l, x < 2 ^ 16) :
    l.getD i 0 < 2 ^ 16 := by
  rw [List.getD_eq_getElem?_getD]
  by_cases hi : i < l.length
  · rw [List.getElem?_eq_getElem hi]
    exact h _ (List.getElem_mem hi)
  · rw [List.getElem?_eq_none (Nat.le_of_not_lt hi)]
    norm_num

/-- As long as at most `2 ^ 16` slots of 16 bits are added, the 32-bit accumulator holds
the exact sum of the slots read so far. -/
theorem accumulate_eq_sum_take (l : List Nat) (h : ∀ x ∈ l, x < 2 ^ 16) (i : Nat)
    (hi : i ≤ 2 ^ 16) :
    accumulate l i = (l.take i).sum ∧ (l.take i).sum ≤ i * (2 ^ 16 - 1) := by
  induction i with
  | zero => simp [accumulate]
  | succ j ih =>
    obtain ⟨e, b⟩ := ih (by omega)
    have hg := getD_lt_of_forall l j h
    rw [sum_take_succ, accumulate, e]
    have hb : (l.take j).sum + l.getD j 0 ≤ (j + 1) * (2 ^ 16 - 1) := by
      have : (j + 1) * (2 ^ 16 - 1) = j * (2 ^ 16 - 1) + (2 ^ 16 - 1) := by ring
      omega
    refine ⟨Nat.mod_eq_of_lt ?_, hb⟩
    have : (j + 1) * (2 ^ 16 - 1) ≤ 2 ^ 16 * (2 ^ 16 - 1) := Nat.mul_le_mul_right _ hi
    have : (2:Nat) ^ 16 * (2 ^ 16 - 1) < 2 ^ 32 := by norm_num
    omega

theorem sumLoop_eq_sum (buf : List Nat) (h : WindowOk buf) : sumLoop buf = buf.sum := by
  have := (accumulate_eq_sum_take buf h.2 ADC_READ_AVERAGES (by norm_num [ADC_READ_AVERAGES])).1
  rw [sumLoop, this, ← h.1, List.take_length]

theorem railAverage_eq_truncMean (buf : List Nat) (h : WindowOk buf) :
    railAverage buf = truncMean buf := by
  rw [railAverage, sumLoop_eq_sum buf h, truncMean, ADC_READ_AVERAGES]

theorem truncMean_le (buf : List Nat) (h : WindowOk buf) : truncMean buf ≤ 2 ^ 16 - 1 := by
  have := (accumulate_eq_sum_take buf h.2 ADC_READ_AVERAGES (by norm_num [ADC_READ_AVERAGES])).2
  rw [← h.1, List.take_length, h.1, ADC_READ_AVERAGES] at this
  rw [truncMean]
  omega

/-- With a scale factor of at most 16 bits the product does not wrap, and the 32-bit
computation yields the exact scaled value. -/
theorem railMillivolts_eq (cfg : AdcConfig) (buf : List Nat) (h : WindowOk buf)
    (hmv : cfg.ADC_MV ≤ 65535) :
    railMillivolts cfg buf = (truncMean buf * cfg.ADC_MV) >>> cfg.ADC_BITS := by
  have hm := truncMean_le buf h
  rw [railMillivolts, railAverage_eq_truncMean buf h]
  have : truncMean buf * cfg.ADC_MV < 2 ^ 32 := by
    calc truncMean buf * cfg.ADC_MV ≤ (2 ^ 16 - 1) * 65535 := Nat.mul_le_mul hm hmv
      _ < 2 ^ 32 := by norm_num
  rw [Nat.mod_eq_of_lt this]



/-- On a window of ten 16-bit slots the millivolt value is the 32-bit scaling of the
truncated mean of the window. -/
theorem railMillivolts_of_windowOk (cfg : AdcConfig) (buf : List Nat) (h : WindowOk buf) :
    railMillivolts cfg buf = ((truncMean buf * cfg.ADC_MV) % 2 ^ 32) >>> cfg.ADC_BITS := by
  rw [railMillivolts, railAverage_eq_truncMean buf h]

/-- The three rail bits after a classifying iteration, in terms of the truncated means of
the three windows. -/
theorem status_bits_of_classify (cfg : AdcConfig) (inp : Inputs) (s : State)
    (h : ADC_READ_AVERAGES ≤ s.averageIndex)
    (w0 : WindowOk s.averageBufferSQ0) (w1 : WindowOk s.averageBufferSQ1)
    (w2 : WindowOk s.averageBufferSQ2) :
    (test_pod_check cfg inp s).status_field.testBit 0 =
      decide (((truncMean s.averageBufferSQ0 * cfg.ADC_MV) % 2 ^ 32) >>> cfg.ADC_BITS
          < HIGH_THRESH_5v ∧
        ((truncMean s.averageBufferSQ0 * cfg.ADC_MV) % 2 ^ 32) >>> cfg.ADC_BITS
          > LOW_THRESH_5v) ∧
    (test_pod_check cfg inp s).status_field.testBit 1 =
      decide (((truncMean s.averageBufferSQ1 * cfg.ADC_MV) % 2 ^ 32) >>> cfg.ADC_BITS
          < HIGH_THRESH_VIO ∧
        ((truncMean s.averageBufferSQ1 * cfg.ADC_MV) % 2 ^ 32) >>> cfg.ADC_BITS
          > LOW_THRESH_VIO) ∧
    (test_pod_check cfg inp s).status_field.testBit 2 =
      decide (((truncMean s.averageBufferSQ2 * cfg.ADC_MV) % 2 ^ 32) >>> cfg.ADC_BITS
          < HIGH_THRESH_3v3 ∧
        ((truncMean s.averageBufferSQ2 * cfg.ADC_MV) % 2 ^ 32) >>> cfg.ADC_BITS
          > LOW_THRESH_3v3) := by
  rw [status_testBit_of_classify cfg inp s 0 h, status_testBit_of_classify cfg inp s 1 h,
    status_testBit_of_classify cfg inp s 2 h, railMillivolts_of_windowOk cfg _ w0,
    railMillivolts_of_windowOk cfg _ w1, railMillivolts_of_windowOk cfg _ w2]
  simp

/-! ## Lemmas on the output encoding -/

theorem mod8_eq_of_testBit (a b : Nat) (h : ∀ i, i < 3 → a.testBit i = b.testBit i) :
    a % 8 = b % 8 := by
  have e : (8 : Nat) = 2 ^ 3 := by norm_num
  rw [e]
  apply Nat.eq_of_testBit_eq
  intro i
  rw [Nat.testBit_mod_two_pow, Nat.testBit_mod_two_pow]
  by_cases hi : i < 3
  · simp [hi, h i hi]
  · simp [hi]

theorem portValue_mod8 (sf : Nat) (pin : Bool) : portValue sf pin = portValue (sf % 8) pin := by
  have e7 : (0x7 : Nat) = 2 ^ 3 - 1 := by norm_num
  have e8 : (8 : Nat) = 2 ^ 3 := by norm_num
  have e16 : (0xFFFF : Nat) = 2 ^ 16 - 1 := by norm_num
  cases pin
  · simp only [portValue, bnot16, Bool.false_eq_true, if_false]
    apply Nat.eq_of_testBit_eq
    intro i
    rw [e7, e8, e16]
    simp only [Nat.testBit_mod_two_pow, Nat.testBit_and, Nat.testBit_xor,
      Nat.testBit_two_pow_sub_one]
    by_cases hi : i < 3
    · simp [hi]
    · simp [hi]
  · simp only [portValue, if_true]
    apply Nat.eq_of_testBit_eq
    intro i
    rw [e7, e8]
    simp only [Nat.testBit_mod_two_pow, Nat.testBit_and, Nat.testBit_two_pow_sub_one]
    by_cases hi : i < 3
    · simp [hi]
    · simp [hi]

theorem portValue_of_lt_eight (sf : Nat) (h : sf < 8) :
    portValue sf true = sf ∧ portValue sf false = 7 - sf := by
  interval_cases sf <;> exact ⟨by decide, by decide⟩

/-! ## The claims -/

/-- C1: on an iteration that classifies (index at `ADC_READ_AVERAGES`, windows of ten 16-bit
slots, scale factor of at most 16 bits), each rail's status bit is set afterwards exactly when
`mv = (truncated mean of the window * ADC_MV) >> ADC_BITS` lies strictly between the rail's
bounds: 897 and 1096 for 5V (bit 0), 340 and 376 for VIO (bit 1), 624 and 690 for 3.3V
(bit 2).  A value equal to a bound or outside the window clears the bit. -/
theorem C1_classification_strict_window (cfg : AdcConfig) (inp : Inputs) (s : State)
    (hready : ADC_READ_AVERAGES ≤ s.averageIndex)
    (h0 : WindowOk s.averageBufferSQ0) (h1 : WindowOk s.averageBufferSQ1)
    (h2 : WindowOk s.averageBufferSQ2) (hmv : cfg.ADC_MV ≤ 65535) :
    ((test_pod_check cfg inp s).status_field.testBit 0 = true ↔
      897 < (truncMean s.averageBufferSQ0 * cfg.ADC_MV) >>> cfg.ADC_BITS ∧
      (truncMean s.averageBufferSQ0 * cfg.ADC_MV) >>> cfg.ADC_BITS < 1096) ∧
    ((test_pod_check cfg inp s).status_field.testBit 1 = true ↔
      340 < (truncMean s.averageBufferSQ1 * cfg.ADC_MV) >>> cfg.ADC_BITS ∧
      (truncMean s.averageBufferSQ1 * cfg.ADC_MV) >>> cfg.ADC_BITS < 376) ∧
    ((test_pod_check cfg inp s).status_field.testBit 2 = true ↔
      624 < (truncMean s.averageBufferSQ2 * cfg.ADC_MV) >>> cfg.ADC_BITS ∧
      (truncMean s.averageBufferSQ2 * cfg.ADC_MV) >>> cfg.ADC_BITS < 690) := by
  rw [status_testBit_of_classify cfg inp s 0 hready,
    status_testBit_of_classify cfg inp s 1 hready,
    status_testBit_of_classify cfg inp s 2 hready,
    railMillivolts_eq cfg _ h0 hmv, railMillivolts_eq cfg _ h1 hmv,
    railMillivolts_eq cfg _ h2 hmv]
  simp only [HIGH_THRESH_5v, LOW_THRESH_5v, HIGH_THRESH_VIO, LOW_THRESH_VIO,
    HIGH_THRESH_3v3, LOW_THRESH_3v3]
  refine ⟨?_, ?_, ?_⟩ <;> simp <;> exact and_comm

theorem C1_classification_strict_window_witness :
    (ADC_READ_AVERAGES ≤
      (readyState (List.replicate 10 931) (List.replicate 10 317) (List.replicate 10 606) 0).averageIndex) ∧
    (test_pod_check sampleConfig (constInput 0 0 0 true)
      (readyState (List.replicate 10 931) (List.replicate 10 317)
        (List.replicate 10 606) 0)).status_field.testBit 0 = true ∧
    ¬ (test_pod_check sampleConfig (constInput 0 0 0 true)
      (readyState (List.replicate 10 931) (List.replicate 10 317)
        (List.replicate 10 606) 0)).status_field.testBit 1 = true ∧
    ¬ (test_pod_check sampleConfig (constInput 0 0 0 true)
      (readyState (List.replicate 10 1024) (List.replicate 10 317)
        (List.replicate 10 606) 7)).status_field.testBit 0 = true :=
  ⟨by decide,
    (C1_classification_strict_window sampleConfig (constInput 0 0 0 true)
      (readyState (List.replicate 10 931) (List.replicate 10 317) (List.replicate 10 606) 0)
      (by decide) (by decide) (by decide) (by decide) (by decide)).1.2 (by decide),
    fun h => absurd
      ((C1_classification_strict_window sampleConfig (constInput 0 0 0 true)
        (readyState (List.replicate 10 931) (List.replicate 10 317) (List.replicate 10 606) 0)
        (by decide) (by decide) (by decide) (by decide) (by decide)).2.1.1 h) (by decide),
    fun h => absurd
      ((C1_classification_strict_window sampleConfig (constInput 0 0 0 true)
        (readyState (List.replicate 10 1024) (List.replicate 10 317) (List.replicate 10 606) 7)
        (by decide) (by decide) (by decide) (by decide) (by decide)).1.1 h) (by decide)⟩

/-- C2: for a 3-bit status field `s` at the end of an iteration, `PORTB` receives `s` itself
when the mode pin `PINA7` is high, and `7 - s`, the complement of `s` on its three bits,
when the pin is low. -/
theorem C2_output_polarity (cfg : AdcConfig) (inp : Inputs) (s : State)
    (h : (test_pod_check cfg inp s).status_field < 8) :
    (inp.PINA7 = true → (test_pod_check cfg inp s).PORTB = (test_pod_check cfg inp s).status_field) ∧
    (inp.PINA7 = false →
      (test_pod_check cfg inp s).PORTB = 7 - (test_pod_check cfg inp s).status_field ∧
      (test_pod_check cfg inp s).PORTB < 8 ∧
      ∀ i, i < 3 → (test_pod_check cfg inp s).PORTB.testBit i =
        !(test_pod_check cfg inp s).status_field.testBit i) := by
  have hp : (test_pod_check cfg inp s).PORTB =
      portValue (test_pod_check cfg inp s).status_field inp.PINA7 := rfl
  rw [hp]
  generalize (test_pod_check cfg inp s).status_field = sf at h
  have hv := portValue_of_lt_eight sf h
  refine ⟨fun hpin => by rw [hpin]; exact hv.1, fun hpin => ?_⟩
  rw [hpin, hv.2]
  refine ⟨rfl, by omega, ?_⟩
  intro i hi
  interval_cases sf <;> interval_cases i <;> decide

theorem C2_output_polarity_witness :
    (test_pod_check sampleConfig (constInput 0 0 0 false) (fillingState 4 3)).status_field < 8 ∧
    (test_pod_check sampleConfig (constInput 0 0 0 false) (fillingState 4 3)).status_field = 3 ∧
    (test_pod_check sampleConfig (constInput 0 0 0 false) (fillingState 4 3)).PORTB = 7 - 3 :=
  ⟨by decide, by decide,
    ((C2_output_polarity sampleConfig (constInput 0 0 0 false) (fillingState 4 3)
      (by decide)).2 rfl).1⟩



/-- C4: for a window of ten 16-bit samples the average computed by the summation loop and
the division is the truncated mean `(s0 + ... + s9) / 10`, and no addition on the 32-bit
accumulator wraps: before each round the accumulator holds the exact sum of the slots read
so far, and adding the next slot stays below `2 ^ 32`. -/
theorem C4_average_is_truncated_mean (buf : List Nat) (h : WindowOk buf) :
    railAverage buf = buf.sum / 10 ∧
    ∀ i, i < ADC_READ_AVERAGES →
      accumulate buf i = (buf.take i).sum ∧ accumulate buf i + buf.getD i 0 < 2 ^ 32 := by
  refine ⟨railAverage_eq_truncMean buf h, ?_⟩
  intro i hi
  have hi' : i < 10 := hi
  obtain ⟨e, b⟩ := accumulate_eq_sum_take buf h.2 i (by omega)
  have hg := getD_lt_of_forall buf i h.2
  refine ⟨e, ?_⟩
  rw [e]
  have : i * (2 ^ 16 - 1) ≤ 10 * (2 ^ 16 - 1) := Nat.mul_le_mul_right _ (by omega)
  omega

theorem C4_average_is_truncated_mean_witness :
    WindowOk [65535, 65535, 65535, 65535, 65535, 65535, 65535, 65535, 65535, 65534] ∧
    railAverage [65535, 65535, 65535, 65535, 65535, 65535, 65535, 65535, 65535, 65534] = 65534 :=
  ⟨by decide,
    (C4_average_is_truncated_mean
      [65535, 65535, 65535, 65535, 65535, 65535, 65535, 65535, 65535, 65534] (by decide)).1⟩

/-- C8: when the index is below `ADC_READ_AVERAGES` (the iteration records samples instead
of classifying), one iteration leaves the status field exactly as it was, whatever the three
samples and the mode pin are. -/
theorem C8_status_unchanged_while_recording (cfg : AdcConfig) (inp : Inputs) (s : State)
    (h : s.averageIndex < ADC_READ_AVERAGES) :
    (test_pod_check cfg inp s).status_field = s.status_field :=
  status_of_record cfg inp s h

theorem C8_status_unchanged_while_recording_witness :
    (fillingState 9 5).averageIndex < ADC_READ_AVERAGES ∧
    (test_pod_check sampleConfig (constInput 931 350 650 true) (fillingState 9 5)).status_field
      = 5 :=
  ⟨by decide,
    C8_status_unchanged_while_recording sampleConfig (constInput 931 350 650 true)
      (fillingState 9 5) (by decide)⟩



/-- C9: on classifying iterations bit 0 of the new status field is determined by the 5V
window `averageBufferSQ0` alone, bit 1 by the VIO window `averageBufferSQ1` alone and bit 2
by the 3.3V window `averageBufferSQ2` alone: two classifying states that agree on a rail's
window get the same bit for that rail, whatever else differs between them (the other
windows, the prior status field, the samples, the mode pin).  Bits 3..7 of the status field
are left as they were by every iteration. -/
theorem C9_rail_bits_independent (cfg : AdcConfig) (inp₁ inp₂ : Inputs) (s₁ s₂ : State)
    (h₁ : ADC_READ_AVERAGES ≤ s₁.averageIndex) (h₂ : ADC_READ_AVERAGES ≤ s₂.averageIndex) :
    (s₁.averageBufferSQ0 = s₂.averageBufferSQ0 →
      (test_pod_check cfg inp₁ s₁).status_field.testBit 0 =
        (test_pod_check cfg inp₂ s₂).status_field.testBit 0) ∧
    (s₁.averageBufferSQ1 = s₂.averageBufferSQ1 →
      (test_pod_check cfg inp₁ s₁).status_field.testBit 1 =
        (test_pod_check cfg inp₂ s₂).status_field.testBit 1) ∧
    (s₁.averageBufferSQ2 = s₂.averageBufferSQ2 →
      (test_pod_check cfg inp₁ s₁).status_field.testBit 2 =
        (test_pod_check cfg inp₂ s₂).status_field.testBit 2) ∧
    (∀ (inp : Inputs) (s : State) (i : Nat), 3 ≤ i → i < 8 →
      (test_pod_check cfg inp s).status_field.testBit i = s.status_field.testBit i) := by
  refine ⟨fun e => ?_, fun e => ?_, fun e => ?_, ?_⟩
  · rw [status_testBit_of_classify cfg inp₁ s₁ 0 h₁,
      status_testBit_of_classify cfg inp₂ s₂ 0 h₂, e]
    simp
  · rw [status_testBit_of_classify cfg inp₁ s₁ 1 h₁,
      status_testBit_of_classify cfg inp₂ s₂ 1 h₂, e]
    simp
  · rw [status_testBit_of_classify cfg inp₁ s₁ 2 h₁,
      status_testBit_of_classify cfg inp₂ s₂ 2 h₂, e]
    simp
  · intro inp s i h3 h8
    by_cases hr : s.averageIndex < ADC_READ_AVERAGES
    · rw [status_of_record cfg inp s hr]
    · rw [status_testBit_of_classify cfg inp s i (Nat.le_of_not_lt hr)]
      have e0 : ¬ i = 0 := by omega
      have e1 : ¬ i = 1 := by omega
      have e2 : ¬ i = 2 := by omega
      simp [e0, e1, e2, h8]

theorem C9_rail_bits_independent_witness :
    (ADC_READ_AVERAGES ≤
      (readyState (List.replicate 10 931) (List.replicate 10 317) (List.replicate 10 606)
        0).averageIndex) ∧
    (ADC_READ_AVERAGES ≤
      (readyState (List.replicate 10 931) (List.replicate 10 330) (List.replicate 10 0)
        0xF8).averageIndex) ∧
    (test_pod_check sampleConfig (constInput 1 2 3 true)
      (readyState (List.replicate 10 931) (List.replicate 10 317) (List.replicate 10 606)
        0)).status_field.testBit 0 =
    (test_pod_check sampleConfig (constInput 4 5 6 false)
      (readyState (List.replicate 10 931) (List.replicate 10 330) (List.replicate 10 0)
        0xF8)).status_field.testBit 0 :=
  ⟨by decide, by decide,
    (C9_rail_bits_independent sampleConfig (constInput 1 2 3 true) (constInput 4 5 6 false)
      (readyState (List.replicate 10 931) (List.replicate 10 317) (List.replicate 10 606) 0)
      (readyState (List.replicate 10 931) (List.replicate 10 330) (List.replicate 10 0) 0xF8)
      (by decide) (by decide)).1 rfl⟩

/-- C10: no hysteresis.  On a classifying iteration the three rail bits of the resulting
status field do not depend on the status field before the iteration: two classifying states
with the same index and the same three windows, whatever their prior status fields, end with
equal low three bits, and with the same mode pin level they drive the same value on
`PORTB`. -/
theorem C10_no_hysteresis (cfg : AdcConfig) (inp₁ inp₂ : Inputs) (s₁ s₂ : State)
    (hready : ADC_READ_AVERAGES ≤ s₁.averageIndex)
    (hidx : s₂.averageIndex = s₁.averageIndex)
    (hb0 : s₂.averageBufferSQ0 = s₁.averageBufferSQ0)
    (hb1 : s₂.averageBufferSQ1 = s₁.averageBufferSQ1)
    (hb2 : s₂.averageBufferSQ2 = s₁.averageBufferSQ2)
    (hpin : inp₂.PINA7 = inp₁.PINA7) :
    (test_pod_check cfg inp₁ s₁).status_field % 8 =
      (test_pod_check cfg inp₂ s₂).status_field % 8 ∧
    (test_pod_check cfg inp₁ s₁).PORTB = (test_pod_check cfg inp₂ s₂).PORTB := by
  have hready₂ : ADC_READ_AVERAGES ≤ s₂.averageIndex := by rw [hidx]; exact hready
  have hlow : (test_pod_check cfg inp₁ s₁).status_field % 8 =
      (test_pod_check cfg inp₂ s₂).status_field % 8 := by
    apply mod8_eq_of_testBit
    intro i hi
    rw [status_testBit_of_classify cfg inp₁ s₁ i hready,
      status_testBit_of_classify cfg inp₂ s₂ i hready₂, hb0, hb1, hb2]
    interval_cases i <;> simp
  refine ⟨hlow, ?_⟩
  have p₁ : (test_pod_check cfg inp₁ s₁).PORTB =
      portValue (test_pod_check cfg inp₁ s₁).status_field inp₁.PINA7 := rfl
  have p₂ : (test_pod_check cfg inp₂ s₂).PORTB =
      portValue (test_pod_check cfg inp₂ s₂).status_field inp₂.PINA7 := rfl
  rw [p₁, p₂, hpin, portValue_mod8 (test_pod_check cfg inp₁ s₁).status_field,
    portValue_mod8 (test_pod_check cfg inp₂ s₂).status_field, hlow]

theorem C10_no_hysteresis_witness :
    (ADC_READ_AVERAGES ≤
      (readyState (List.replicate 10 931) (List.replicate 10 317) (List.replicate 10 606)
        0).averageIndex) ∧
    (test_pod_check sampleConfig (constInput 1 2 3 false)
      (readyState (List.replicate 10 931) (List.replicate 10 317) (List.replicate 10 606)
        0)).PORTB =
    (test_pod_check sampleConfig (constInput 4 5 6 false)
      (readyState (List.replicate 10 931) (List.replicate 10 317) (List.replicate 10 606)
        7)).PORTB :=
  ⟨by decide,
    (C10_no_hysteresis sampleConfig (constInput 1 2 3 false) (constInput 4 5 6 false)
      (readyState (List.replicate 10 931) (List.replicate 10 317) (List.replicate 10 606) 0)
      (readyState (List.replicate 10 931) (List.replicate 10 317) (List.replicate 10 606) 7)
      (by decide) rfl rfl rfl rfl rfl).2⟩



/-! ## Lemmas on runs of the loop -/

theorem run_append (cfg : AdcConfig) (s : State) (l₁ l₂ : List Inputs) :
    run cfg s (l₁ ++ l₂) = run cfg (run cfg s l₁) l₂ := by
  induction l₁ generalizing s with
  | nil => rfl
  | cons a t ih => simp only [List.cons_append, run]; exact ih _

theorem nextIndex_of_lt (idx : Nat) (h : idx < ADC_READ_AVERAGES) : nextIndex idx = idx + 1 := by
  have h' : idx < 10 := h
  have : ¬ idx ≥ ADC_READ_AVERAGES := Nat.not_le.mpr h
  simp only [nextIndex, this, if_false]
  omega

theorem nextIndex_of_ge (idx : Nat) (h : ADC_READ_AVERAGES ≤ idx) : nextIndex idx = 0 := by
  simp [nextIndex, h]

theorem take_set_succ (l : List Nat) (i v : Nat) (hi : i < l.length) :
    (l.set i v).take (i + 1) = l.take i ++ [v] := by
  induction l generalizing i with
  | nil => simp at hi
  | cons a t ih =>
    cases i with
    | zero => simp
    | succ j =>
      have hj : j < t.length := by simpa using hi
      simp [ih j hj]

/-- The effect of one recording iteration on every component of the state. -/
theorem test_pod_check_record (cfg : AdcConfig) (inp : Inputs) (s : State)
    (h : s.averageIndex < ADC_READ_AVERAGES) :
    test_pod_check cfg inp s =
      { status_field := s.status_field
        averageIndex := s.averageIndex + 1
        averageBufferSQ0 := s.averageBufferSQ0.set s.averageIndex (inp.adcSQ0 % 2 ^ 16)
        averageBufferSQ1 := s.averageBufferSQ1.set s.averageIndex (inp.adcSQ1 % 2 ^ 16)
        averageBufferSQ2 := s.averageBufferSQ2.set s.averageIndex (inp.adcSQ2 % 2 ^ 16)
        PORTB := portValue s.status_field inp.PINA7 } := by
  simp only [test_pod_check, railBlock_record _ _ _ _ _ _ _ _ h, nextIndex_of_lt _ h]

/-- A stretch of recording iterations: the index advances by the number of iterations, the
status field stays, and each window receives the samples in consecutive slots. -/
theorem run_record (cfg : AdcConfig) (blk : List Inputs) (s : State)
    (h : s.averageIndex + blk.length ≤ ADC_READ_AVERAGES)
    (l0 : s.averageBufferSQ0.length = ADC_READ_AVERAGES)
    (l1 : s.averageBufferSQ1.length = ADC_READ_AVERAGES)
    (l2 : s.averageBufferSQ2.length = ADC_READ_AVERAGES) :
    (run cfg s blk).averageIndex = s.averageIndex + blk.length ∧
    (run cfg s blk).status_field = s.status_field ∧
    (run cfg s blk).averageBufferSQ0 =
      s.averageBufferSQ0.take s.averageIndex ++ blk.map (fun x => x.adcSQ0 % 2 ^ 16) ++
        s.averageBufferSQ0.drop (s.averageIndex + blk.length) ∧
    (run cfg s blk).averageBufferSQ1 =
      s.averageBufferSQ1.take s.averageIndex ++ blk.map (fun x => x.adcSQ1 % 2 ^ 16) ++
        s.averageBufferSQ1.drop (s.averageIndex + blk.length) ∧
    (run cfg s blk).averageBufferSQ2 =
      s.averageBufferSQ2.take s.averageIndex ++ blk.map (fun x => x.adcSQ2 % 2 ^ 16) ++
        s.averageBufferSQ2.drop (s.averageIndex + blk.length) := by
  induction blk generalizing s with
  | nil => simp [run]
  | cons inp rest ih =>
    have hlen : (inp :: rest).length = rest.length + 1 := rfl
    rw [hlen] at h
    have hidx : s.averageIndex < ADC_READ_AVERAGES := by omega
    have hs := test_pod_check_record cfg inp s hidx
    have ih' := ih (test_pod_check cfg inp s)
    rw [hs] at ih'
    simp only [List.length_set] at ih'
    obtain ⟨a, b, c0, c1, c2⟩ := ih' (by omega) l0 l1 l2
    have i0 : s.averageIndex < s.averageBufferSQ0.length := by omega
    have i1 : s.averageIndex < s.averageBufferSQ1.length := by omega
    have i2 : s.averageIndex < s.averageBufferSQ2.length := by omega
    have hd : s.averageIndex < s.averageIndex + 1 + rest.length := by omega
    rw [take_set_succ _ _ _ i0, List.drop_set_of_lt _ _ hd] at c0
    rw [take_set_succ _ _ _ i1, List.drop_set_of_lt _ _ hd] at c1
    rw [take_set_succ _ _ _ i2, List.drop_set_of_lt _ _ hd] at c2
    have harith : s.averageIndex + (rest.length + 1) = s.averageIndex + 1 + rest.length := by
      omega
    simp only [run, hs, hlen, harith, List.map_cons]
    refine ⟨a, b, ?_, ?_, ?_⟩
    · rw [c0]; simp
    · rw [c1]; simp
    · rw [c2]; simp



/-- The effect of one classifying iteration on the windows and the index. -/
theorem test_pod_check_classify_frame (cfg : AdcConfig) (inp : Inputs) (s : State)
    (h : ADC_READ_AVERAGES ≤ s.averageIndex) :
    (test_pod_check cfg inp s).averageIndex = 0 ∧
    (test_pod_check cfg inp s).averageBufferSQ0 = s.averageBufferSQ0 ∧
    (test_pod_check cfg inp s).averageBufferSQ1 = s.averageBufferSQ1 ∧
    (test_pod_check cfg inp s).averageBufferSQ2 = s.averageBufferSQ2 :=
  ⟨nextIndex_of_ge _ h, railBlock_classify_buf _ _ _ _ _ _ _ _ h,
    railBlock_classify_buf _ _ _ _ _ _ _ _ h, railBlock_classify_buf _ _ _ _ _ _ _ _ h⟩

theorem averageIndex_step (cfg : AdcConfig) (inp : Inputs) (s : State)
    (h : s.averageIndex ≤ ADC_READ_AVERAGES) :
    (test_pod_check cfg inp s).averageIndex = (s.averageIndex + 1) % (ADC_READ_AVERAGES + 1) := by
  have h' : s.averageIndex ≤ 10 := h
  show nextIndex s.averageIndex = _
  by_cases hr : s.averageIndex < ADC_READ_AVERAGES
  · have hr' : s.averageIndex < 10 := hr
    rw [nextIndex_of_lt _ hr, ADC_READ_AVERAGES]
    omega
  · have e : s.averageIndex = 10 := by
      have : ¬ s.averageIndex < 10 := hr
      omega
    rw [nextIndex_of_ge _ (Nat.le_of_not_lt hr), e, ADC_READ_AVERAGES]

theorem averageIndex_run_le (cfg : AdcConfig) (inputs : List Inputs) (s : State)
    (h : s.averageIndex ≤ ADC_READ_AVERAGES) :
    (run cfg s inputs).averageIndex ≤ ADC_READ_AVERAGES := by
  induction inputs generalizing s with
  | nil => exact h
  | cons inp rest ih =>
    apply ih
    rw [averageIndex_step cfg inp s h]
    exact Nat.le_of_lt_succ (Nat.mod_lt _ (by norm_num [ADC_READ_AVERAGES]))

theorem initState_lengths :
    initState.averageIndex = 0 ∧ initState.status_field = 0 ∧
    initState.averageBufferSQ0.length = ADC_READ_AVERAGES ∧
    initState.averageBufferSQ1.length = ADC_READ_AVERAGES ∧
    initState.averageBufferSQ2.length = ADC_READ_AVERAGES := by
  simp [initState]

/-- C3: starting from the all-zero initial state, after `k < ADC_READ_AVERAGES` iterations
the status field is still 0, whatever the samples and mode pin levels were. -/
theorem C3_warmup_status_zero (cfg : AdcConfig) (inputs : List Inputs)
    (h : inputs.length < ADC_READ_AVERAGES) :
    (run cfg initState inputs).status_field = 0 := by
  obtain ⟨i0, sf0, l0, l1, l2⟩ := initState_lengths
  have := (run_record cfg inputs initState (by rw [i0]; omega) l0 l1 l2).2.1
  rw [this, sf0]

theorem C3_warmup_status_zero_witness :
    [constInput 931 350 650 true, constInput 65535 65535 65535 false, constInput 0 0 0 true,
      constInput 1000 340 640 false, constInput 931 350 650 true].length < ADC_READ_AVERAGES ∧
    (run sampleConfig initState
      [constInput 931 350 650 true, constInput 65535 65535 65535 false, constInput 0 0 0 true,
        constInput 1000 340 640 false, constInput 931 350 650 true]).status_field = 0 :=
  ⟨by decide, C3_warmup_status_zero sampleConfig _ (by decide)⟩

/-- C7 as stated fails: after ten iterations the index is 10, outside `0..N-1`, and the
iteration taken at index 9 moves it to 10, not to `(9 + 1) mod 10 = 0`. -/
theorem C7_counterexample :
    ¬ ((run sampleConfig initState (List.replicate 10 (constInput 0 0 0 true))).averageIndex
        < ADC_READ_AVERAGES) ∧
    (run sampleConfig initState (List.replicate 9 (constInput 0 0 0 true))).averageIndex = 9 ∧
    (test_pod_check sampleConfig (constInput 0 0 0 true)
      (run sampleConfig initState (List.replicate 9 (constInput 0 0 0 true)))).averageIndex
        ≠ (9 + 1) % ADC_READ_AVERAGES := by
  decide

/-- C7, amended: in every state reachable from the initial state the shared index
`averageIndex` lies in `0..N` (N = 10, bounds included), and every iteration advances it to
`(index + 1) mod (N + 1)`. -/
theorem C7_index_cycles_mod_eleven (cfg : AdcConfig) (inputs : List Inputs) (inp : Inputs) :
    (run cfg initState inputs).averageIndex ≤ ADC_READ_AVERAGES ∧
    (test_pod_check cfg inp (run cfg initState inputs)).averageIndex =
      ((run cfg initState inputs).averageIndex + 1) % (ADC_READ_AVERAGES + 1) := by
  have hle := averageIndex_run_le cfg inputs initState (by decide)
  exact ⟨hle, averageIndex_step cfg inp _ hle⟩



/-- A full block of ten recording iterations started at index 0 fills each window with the
ten samples of its rail, in order, and leaves the loop about to classify. -/
theorem run_block (cfg : AdcConfig) (blk : List Inputs) (s : State)
    (hidx : s.averageIndex = 0) (hlen : blk.length = ADC_READ_AVERAGES)
    (l0 : s.averageBufferSQ0.length = ADC_READ_AVERAGES)
    (l1 : s.averageBufferSQ1.length = ADC_READ_AVERAGES)
    (l2 : s.averageBufferSQ2.length = ADC_READ_AVERAGES) :
    (run cfg s blk).averageIndex = ADC_READ_AVERAGES ∧
    (run cfg s blk).status_field = s.status_field ∧
    (run cfg s blk).averageBufferSQ0 = blk.map (fun x => x.adcSQ0 % 2 ^ 16) ∧
    (run cfg s blk).averageBufferSQ1 = blk.map (fun x => x.adcSQ1 % 2 ^ 16) ∧
    (run cfg s blk).averageBufferSQ2 = blk.map (fun x => x.adcSQ2 % 2 ^ 16) := by
  obtain ⟨a, b, c0, c1, c2⟩ := run_record cfg blk s (by rw [hidx, hlen]; omega) l0 l1 l2
  rw [hidx, hlen] at a c0 c1 c2
  have d0 : s.averageBufferSQ0.drop (0 + ADC_READ_AVERAGES) = [] :=
    List.drop_eq_nil_of_le (by omega)
  have d1 : s.averageBufferSQ1.drop (0 + ADC_READ_AVERAGES) = [] :=
    List.drop_eq_nil_of_le (by omega)
  have d2 : s.averageBufferSQ2.drop (0 + ADC_READ_AVERAGES) = [] :=
    List.drop_eq_nil_of_le (by omega)
  rw [d0] at c0
  rw [d1] at c1
  rw [d2] at c2
  refine ⟨by omega, b, ?_, ?_, ?_⟩
  · rw [c0]; simp
  · rw [c1]; simp
  · rw [c2]; simp

theorem map_mod_eq_of_lt (f : Inputs → Nat) (blk : List Inputs)
    (h : ∀ x ∈ blk, f x < 2 ^ 16) :
    blk.map (fun x => f x % 2 ^ 16) = blk.map f :=
  List.map_congr_left (fun x hx => Nat.mod_eq_of_lt (h x hx))

theorem windowOk_map (f : Inputs → Nat) (blk : List Inputs)
    (hlen : blk.length = ADC_READ_AVERAGES) (h : ∀ x ∈ blk, f x < 2 ^ 16) :
    WindowOk (blk.map f) := by
  refine ⟨by rw [List.length_map, hlen], ?_⟩
  intro y hy
  obtain ⟨x, hx, rfl⟩ := List.mem_map.mp hy
  exact h x hx

/-- C6 as stated fails: ten samples on the 5V rail whose truncated mean converts to
1000 mV, strictly inside (897, 1096), leave bit 0 of the status field clear after exactly
ten iterations from the initial state. -/
theorem C6_counterexample :
    (List.replicate 10 (constInput 931 0 0 true)).length = ADC_READ_AVERAGES ∧
    (truncMean ((List.replicate 10 (constInput 931 0 0 true)).map Inputs.adcSQ0)
      * sampleConfig.ADC_MV) >>> sampleConfig.ADC_BITS = 1000 ∧
    (run sampleConfig initState
      (List.replicate 10 (constInput 931 0 0 true))).status_field.testBit 0 = false := by
  decide

/-- C6, amended: the first classification update happens on iteration N + 1 = 11.  Starting
from the all-zero initial state, after eleven iterations of which the first ten supply 5V
samples (16-bit values) with truncated mean `m` such that `(m * ADC_MV) >> ADC_BITS = 1000`,
bit 0 of the status field is set; after each of the first ten iterations the status field is
still 0, and only then is the loop about to classify. -/
theorem C6_first_classification_on_eleventh (cfg : AdcConfig) (blk : List Inputs)
    (last : Inputs) (hlen : blk.length = ADC_READ_AVERAGES)
    (h16 : ∀ x ∈ blk, x.adcSQ0 < 2 ^ 16) (hmv : cfg.ADC_MV ≤ 65535)
    (hm : (truncMean (blk.map Inputs.adcSQ0) * cfg.ADC_MV) >>> cfg.ADC_BITS = 1000) :
    (run cfg initState (blk ++ [last])).status_field.testBit 0 = true ∧
    (∀ k, k ≤ ADC_READ_AVERAGES → (run cfg initState (blk.take k)).status_field = 0) ∧
    (run cfg initState blk).averageIndex = ADC_READ_AVERAGES := by
  obtain ⟨i0, sf0, l0, l1, l2⟩ := initState_lengths
  obtain ⟨a, _, c0, _, _⟩ := run_block cfg blk initState i0 hlen l0 l1 l2
  refine ⟨?_, ?_, a⟩
  · have hrun : run cfg initState (blk ++ [last]) =
        test_pod_check cfg last (run cfg initState blk) := by
      rw [run_append]; rfl
    rw [hrun, status_testBit_of_classify cfg last _ 0 (Nat.le_of_eq a.symm), c0,
      map_mod_eq_of_lt Inputs.adcSQ0 blk h16,
      railMillivolts_eq cfg _ (windowOk_map Inputs.adcSQ0 blk hlen h16) hmv, hm]
    simp [HIGH_THRESH_5v, LOW_THRESH_5v]
  · intro k hk
    have hk' : (blk.take k).length ≤ ADC_READ_AVERAGES := by
      rw [List.length_take]; omega
    have := (run_record cfg (blk.take k) initState (by rw [i0]; omega) l0 l1 l2).2.1
    rw [this, sf0]

theorem C6_first_classification_on_eleventh_witness :
    (List.replicate 10 (constInput 931 0 0 true)).length = ADC_READ_AVERAGES ∧
    (run sampleConfig initState
      (List.replicate 10 (constInput 931 0 0 true) ++ [constInput 0 0 0 true])).status_field.testBit 0
      = true :=
  ⟨by decide,
    (C6_first_classification_on_eleventh sampleConfig (List.replicate 10 (constInput 931 0 0 true))
      (constInput 0 0 0 true) (by decide) (by decide) (by decide) (by decide)).1⟩



/-- C5 as stated fails: on the iteration after the first full pass the newly available
sample (65535) is not stored, slot 0 keeps the first sample (931), and the average used on
that iteration is the mean 931 of the original ten samples (1000 mV, bit 0 set), not the
mean 7391 of samples 2..11 (7939 mV, which would clear bit 0). -/
theorem C5_counterexample :
    (run sampleConfig initState
      (List.replicate 10 (constInput 931 0 0 true))).averageBufferSQ0 = List.replicate 10 931 ∧
    (run sampleConfig initState
      (List.replicate 10 (constInput 931 0 0 true) ++ [constInput 65535 0 0 true])).averageBufferSQ0
        = List.replicate 10 931 ∧
    railAverage (run sampleConfig initState
      (List.replicate 10 (constInput 931 0 0 true))).averageBufferSQ0 = 931 ∧
    truncMean (List.replicate 9 931 ++ [65535]) = 7391 ∧
    ¬ ((7391 * sampleConfig.ADC_MV) >>> sampleConfig.ADC_BITS < HIGH_THRESH_5v) ∧
    (run sampleConfig initState
      (List.replicate 10 (constInput 931 0 0 true) ++ [constInput 65535 0 0 true])).status_field.testBit 0
        = true := by
  decide

/-- C5, amended (block semantics): take any state with the index at 0 and windows of ten
slots, and run a block of ten iterations with 16-bit samples, then two more iterations.
During the block each iteration stores its sample in the next slot and computes no average:
after `k ≤ N` of them the first `k` slots of each window hold the first `k` samples of its
rail and the status field is as before the block.  After the block each rail's window holds
exactly the block's ten samples of that rail, in order, and the loop is about to classify.
The average computed on the next iteration is the truncated mean of those ten samples, and
each rail bit is set from the millivolt value of that mean; that iteration stores no sample,
leaves the three windows unchanged and resets the index to 0.  The iteration after it
records its sample in slot 0 of each window, the slot holding the oldest sample, leaves the
other nine slots unchanged, and computes no average (the status field is unchanged). -/
theorem C5_block_window_semantics (cfg : AdcConfig) (s : State) (blk : List Inputs)
    (inp₁₁ inp₁₂ : Inputs)
    (hidx : s.averageIndex = 0) (hlen : blk.length = ADC_READ_AVERAGES)
    (l0 : s.averageBufferSQ0.length = ADC_READ_AVERAGES)
    (l1 : s.averageBufferSQ1.length = ADC_READ_AVERAGES)
    (l2 : s.averageBufferSQ2.length = ADC_READ_AVERAGES)
    (h16 : ∀ x ∈ blk, x.adcSQ0 < 2 ^ 16 ∧ x.adcSQ1 < 2 ^ 16 ∧ x.adcSQ2 < 2 ^ 16) :
    ((run cfg s blk).averageIndex = ADC_READ_AVERAGES ∧
      (run cfg s blk).averageBufferSQ0 = blk.map Inputs.adcSQ0 ∧
      (run cfg s blk).averageBufferSQ1 = blk.map Inputs.adcSQ1 ∧
      (run cfg s blk).averageBufferSQ2 = blk.map Inputs.adcSQ2) ∧
    (railAverage (run cfg s blk).averageBufferSQ0 = truncMean (blk.map Inputs.adcSQ0) ∧
      railAverage (run cfg s blk).averageBufferSQ1 = truncMean (blk.map Inputs.adcSQ1) ∧
      railAverage (run cfg s blk).averageBufferSQ2 = truncMean (blk.map Inputs.adcSQ2)) ∧
    ((run cfg s (blk ++ [inp₁₁])).averageIndex = 0 ∧
      (run cfg s (blk ++ [inp₁₁])).averageBufferSQ0 = blk.map Inputs.adcSQ0 ∧
      (run cfg s (blk ++ [inp₁₁])).averageBufferSQ1 = blk.map Inputs.adcSQ1 ∧
      (run cfg s (blk ++ [inp₁₁])).averageBufferSQ2 = blk.map Inputs.adcSQ2) ∧
    ((run cfg s (blk ++ [inp₁₁, inp₁₂])).averageBufferSQ0 =
        (blk.map Inputs.adcSQ0).set 0 (inp₁₂.adcSQ0 % 2 ^ 16) ∧
      (run cfg s (blk ++ [inp₁₁, inp₁₂])).averageBufferSQ1 =
        (blk.map Inputs.adcSQ1).set 0 (inp₁₂.adcSQ1 % 2 ^ 16) ∧
      (run cfg s (blk ++ [inp₁₁, inp₁₂])).averageBufferSQ2 =
        (blk.map Inputs.adcSQ2).set 0 (inp₁₂.adcSQ2 % 2 ^ 16) ∧
      (run cfg s (blk ++ [inp₁₁, inp₁₂])).status_field =
        (run cfg s (blk ++ [inp₁₁])).status_field) ∧
    ((run cfg s (blk ++ [inp₁₁])).status_field.testBit 0 =
        decide (((truncMean (blk.map Inputs.adcSQ0) * cfg.ADC_MV) % 2 ^ 32) >>> cfg.ADC_BITS
            < HIGH_THRESH_5v ∧
          ((truncMean (blk.map Inputs.adcSQ0) * cfg.ADC_MV) % 2 ^ 32) >>> cfg.ADC_BITS
            > LOW_THRESH_5v) ∧
      (run cfg s (blk ++ [inp₁₁])).status_field.testBit 1 =
        decide (((truncMean (blk.map Inputs.adcSQ1) * cfg.ADC_MV) % 2 ^ 32) >>> cfg.ADC_BITS
            < HIGH_THRESH_VIO ∧
          ((truncMean (blk.map Inputs.adcSQ1) * cfg.ADC_MV) % 2 ^ 32) >>> cfg.ADC_BITS
            > LOW_THRESH_VIO) ∧
      (run cfg s (blk ++ [inp₁₁])).status_field.testBit 2 =
        decide (((truncMean (blk.map Inputs.adcSQ2) * cfg.ADC_MV) % 2 ^ 32) >>> cfg.ADC_BITS
            < HIGH_THRESH_3v3 ∧
          ((truncMean (blk.map Inputs.adcSQ2) * cfg.ADC_MV) % 2 ^ 32) >>> cfg.ADC_BITS
            > LOW_THRESH_3v3)) ∧
    (∀ k, k ≤ ADC_READ_AVERAGES →
      (run cfg s (blk.take k)).status_field = s.status_field ∧
      (run cfg s (blk.take k)).averageBufferSQ0 =
        (blk.take k).map Inputs.adcSQ0 ++ s.averageBufferSQ0.drop k ∧
      (run cfg s (blk.take k)).averageBufferSQ1 =
        (blk.take k).map Inputs.adcSQ1 ++ s.averageBufferSQ1.drop k ∧
      (run cfg s (blk.take k)).averageBufferSQ2 =
        (blk.take k).map Inputs.adcSQ2 ++ s.averageBufferSQ2.drop k) := by
  have g0 : ∀ x ∈ blk, Inputs.adcSQ0 x < 2 ^ 16 := fun x hx => (h16 x hx).1
  have g1 : ∀ x ∈ blk, Inputs.adcSQ1 x < 2 ^ 16 := fun x hx => (h16 x hx).2.1
  have g2 : ∀ x ∈ blk, Inputs.adcSQ2 x < 2 ^ 16 := fun x hx => (h16 x hx).2.2
  obtain ⟨a, _, c0, c1, c2⟩ := run_block cfg blk s hidx hlen l0 l1 l2
  rw [map_mod_eq_of_lt Inputs.adcSQ0 blk g0] at c0
  rw [map_mod_eq_of_lt Inputs.adcSQ1 blk g1] at c1
  rw [map_mod_eq_of_lt Inputs.adcSQ2 blk g2] at c2
  have r11 : run cfg s (blk ++ [inp₁₁]) = test_pod_check cfg inp₁₁ (run cfg s blk) := by
    rw [run_append]; rfl
  have r12 : run cfg s (blk ++ [inp₁₁, inp₁₂]) =
      test_pod_check cfg inp₁₂ (test_pod_check cfg inp₁₁ (run cfg s blk)) := by
    rw [run_append]; rfl
  obtain ⟨f, f0, f1, f2⟩ :=
    test_pod_check_classify_frame cfg inp₁₁ (run cfg s blk) (Nat.le_of_eq a.symm)
  have hrec : (test_pod_check cfg inp₁₁ (run cfg s blk)).averageIndex < ADC_READ_AVERAGES := by
    rw [f]; decide
  have hbits := status_bits_of_classify cfg inp₁₁ (run cfg s blk) (Nat.le_of_eq a.symm)
    (by rw [c0]; exact windowOk_map _ blk hlen g0)
    (by rw [c1]; exact windowOk_map _ blk hlen g1)
    (by rw [c2]; exact windowOk_map _ blk hlen g2)
  rw [c0, c1, c2, ← r11] at hbits
  refine ⟨⟨a, c0, c1, c2⟩, ⟨?_, ?_, ?_⟩, ⟨?_, ?_, ?_, ?_⟩, ⟨?_, ?_, ?_, ?_⟩, hbits, ?_⟩
  · rw [c0]; exact railAverage_eq_truncMean _ (windowOk_map _ blk hlen g0)
  · rw [c1]; exact railAverage_eq_truncMean _ (windowOk_map _ blk hlen g1)
  · rw [c2]; exact railAverage_eq_truncMean _ (windowOk_map _ blk hlen g2)
  · rw [r11, f]
  · rw [r11, f0, c0]
  · rw [r11, f1, c1]
  · rw [r11, f2, c2]
  · rw [r12, test_pod_check_record cfg inp₁₂ _ hrec, f, f0, c0]
  · rw [r12, test_pod_check_record cfg inp₁₂ _ hrec, f, f1, c1]
  · rw [r12, test_pod_check_record cfg inp₁₂ _ hrec, f, f2, c2]
  · rw [r12, r11, test_pod_check_record cfg inp₁₂ _ hrec]
  · intro k hk
    have hk' : k ≤ 10 := hk
    have hlen' : blk.length = 10 := hlen
    have htl : (blk.take k).length = k := by rw [List.length_take]; omega
    have hmem : ∀ x ∈ blk.take k, x ∈ blk := fun x hx => List.mem_of_mem_take hx
    obtain ⟨_, b, d0, d1, d2⟩ := run_record cfg (blk.take k) s
      (by rw [hidx, htl]; exact (Nat.zero_add k).symm ▸ hk) l0 l1 l2
    rw [hidx, htl, Nat.zero_add, List.take_zero, List.nil_append] at d0 d1 d2
    rw [map_mod_eq_of_lt Inputs.adcSQ0 _ (fun x hx => g0 x (hmem x hx))] at d0
    rw [map_mod_eq_of_lt Inputs.adcSQ1 _ (fun x hx => g1 x (hmem x hx))] at d1
    rw [map_mod_eq_of_lt Inputs.adcSQ2 _ (fun x hx => g2 x (hmem x hx))] at d2
    exact ⟨b, d0, d1, d2⟩

theorem C5_block_window_semantics_witness :
    (initState.averageIndex = 0 ∧
      (List.replicate 10 (constInput 931 350 650 true)).length = ADC_READ_AVERAGES) ∧
    (run sampleConfig initState
      (List.replicate 10 (constInput 931 350 650 true) ++
        [constInput 65535 1 2 true, constInput 7 8 9 true])).averageBufferSQ0 =
      ((List.replicate 10 (constInput 931 350 650 true)).map Inputs.adcSQ0).set 0 (7 % 2 ^ 16) ∧
    (run sampleConfig initState
      (List.replicate 10 (constInput 931 350 650 true) ++
        [constInput 65535 1 2 true])).status_field.testBit 0 = true :=
  ⟨⟨by decide, by decide⟩,
    (C5_block_window_semantics sampleConfig initState
      (List.replicate 10 (constInput 931 350 650 true))
      (constInput 65535 1 2 true) (constInput 7 8 9 true)
      (by decide) (by decide) (by decide) (by decide) (by decide) (by decide)).2.2.2.1.1,
    ((C5_block_window_semantics sampleConfig initState
      (List.replicate 10 (constInput 931 350 650 true))
      (constInput 65535 1 2 true) (constInput 7 8 9 true)
      (by decide) (by decide) (by decide) (by decide) (by decide) (by decide)).2.2.2.2.1.1).trans
      (by decide)⟩

/-- C11: the three rails move in lockstep.  For every state, one iteration either records a
sample into all three windows and reclassifies none (the status field is unchanged), or
leaves all three windows as they are and reclassifies all three rails; the choice is made
by the shared index alone. -/
theorem C11_rails_in_lockstep (cfg : AdcConfig) (inp : Inputs) (s : State) :
    (s.averageIndex < ADC_READ_AVERAGES ∧
      (test_pod_check cfg inp s).averageBufferSQ0 =
        s.averageBufferSQ0.set s.averageIndex (inp.adcSQ0 % 2 ^ 16) ∧
      (test_pod_check cfg inp s).averageBufferSQ1 =
        s.averageBufferSQ1.set s.averageIndex (inp.adcSQ1 % 2 ^ 16) ∧
      (test_pod_check cfg inp s).averageBufferSQ2 =
        s.averageBufferSQ2.set s.averageIndex (inp.adcSQ2 % 2 ^ 16) ∧
      (test_pod_check cfg inp s).status_field = s.status_field) ∨
    (ADC_READ_AVERAGES ≤ s.averageIndex ∧
      (test_pod_check cfg inp s).averageBufferSQ0 = s.averageBufferSQ0 ∧
      (test_pod_check cfg inp s).averageBufferSQ1 = s.averageBufferSQ1 ∧
      (test_pod_check cfg inp s).averageBufferSQ2 = s.averageBufferSQ2 ∧
      (test_pod_check cfg inp s).status_field.testBit 0 =
        decide (railMillivolts cfg s.averageBufferSQ0 < HIGH_THRESH_5v ∧
          railMillivolts cfg s.averageBufferSQ0 > LOW_THRESH_5v) ∧
      (test_pod_check cfg inp s).status_field.testBit 1 =
        decide (railMillivolts cfg s.averageBufferSQ1 < HIGH_THRESH_VIO ∧
          railMillivolts cfg s.averageBufferSQ1 > LOW_THRESH_VIO) ∧
      (test_pod_check cfg inp s).status_field.testBit 2 =
        decide (railMillivolts cfg s.averageBufferSQ2 < HIGH_THRESH_3v3 ∧
          railMillivolts cfg s.averageBufferSQ2 > LOW_THRESH_3v3)) := by
  by_cases h : s.averageIndex < ADC_READ_AVERAGES
  · left
    rw [test_pod_check_record cfg inp s h]
    exact ⟨h, rfl, rfl, rfl, rfl⟩
  · right
    have hc : ADC_READ_AVERAGES ≤ s.averageIndex := Nat.le_of_not_lt h
    obtain ⟨_, f0, f1, f2⟩ := test_pod_check_classify_frame cfg inp s hc
    refine ⟨hc, f0, f1, f2, ?_, ?_, ?_⟩
    · rw [status_testBit_of_classify cfg inp s 0 hc]; simp
    · rw [status_testBit_of_classify cfg inp s 1 hc]; simp
    · rw [status_testBit_of_classify cfg inp s 2 hc]; simp

/-! ## Start-up -/

/-- C12: with a 16-bit reading and an 8-bit address from `adc_to_addr`, `main` calls
`USI_TWI_Slave_Initialise` exactly when the reading is nonzero and the address derived from it
is nonzero, and then with that address.  With a reading of 0 `adc_to_addr` is not called and
the slave interface is not initialised.  In every case the last thing `main` does is enter
the monitoring loop. -/
theorem C12_slave_init_iff_valid_address (adc_to_addr : Nat → Nat) (reading : Nat)
    (hr : reading < 2 ^ 16) (ha : ∀ v, adc_to_addr v < 2 ^ 8) :
    (∀ a, Call.USI_TWI_Slave_Initialise a ∈ main adc_to_addr reading ↔
      (reading ≠ 0 ∧ adc_to_addr reading ≠ 0 ∧ a = adc_to_addr reading)) ∧
    (reading = 0 → ∀ v, Call.adc_to_addr v ∉ main adc_to_addr reading) ∧
    (main adc_to_addr reading).getLast? = some Call.test_pod_loop := by
  have e1 : reading % 2 ^ 16 = reading := Nat.mod_eq_of_lt hr
  have e2 : adc_to_addr reading % 2 ^ 8 = adc_to_addr reading := Nat.mod_eq_of_lt (ha _)
  refine ⟨?_, ?_, ?_⟩
  · intro a
    simp only [main, e1, e2]
    by_cases h0 : reading > 0
    · have hne : reading ≠ 0 := by omega
      by_cases h1 : adc_to_addr reading > 0
      · have : adc_to_addr reading ≠ 0 := by omega
        simp [h0, h1, hne, this]
      · have : adc_to_addr reading = 0 := by omega
        simp [h0, this, hne]
    · have : reading = 0 := by omega
      simp [this]
  · intro h v
    simp [main, h]
  · simp only [main]
    split_ifs <;> rfl

theorem C12_slave_init_iff_valid_address_witness :
    ((600 : Nat) < 2 ^ 16 ∧ ∀ v, sampleAddr v < 2 ^ 8) ∧
    (Call.USI_TWI_Slave_Initialise 0x30 ∈ main sampleAddr 600) ∧
    (∀ a, Call.USI_TWI_Slave_Initialise a ∉ main sampleAddr 0) :=
  ⟨⟨by decide, fun v => by unfold sampleAddr; split <;> omega⟩,
    ((C12_slave_init_iff_valid_address sampleAddr 600 (by decide)
      (fun v => by unfold sampleAddr; split <;> omega)).1 0x30).2
      ⟨by decide, by decide, by decide⟩,
    fun a h => absurd
      (((C12_slave_init_iff_valid_address sampleAddr 0 (by decide)
        (fun v => by unfold sampleAddr; split <;> omega)).1 a).1 h).1 (by decide)⟩



/-! ## Invariants of the loop -/

theorem averageIndex_run (cfg : AdcConfig) (inputs : List Inputs) (s : State)
    (h : s.averageIndex ≤ ADC_READ_AVERAGES) :
    (run cfg s inputs).averageIndex = (s.averageIndex + inputs.length) % 11 := by
  induction inputs generalizing s with
  | nil =>
    have h' : s.averageIndex ≤ 10 := h
    simp only [run, List.length_nil, Nat.add_zero]
    omega
  | cons inp rest ih =>
    have h' : s.averageIndex ≤ 10 := h
    have hstep := averageIndex_step cfg inp s h
    have e11 : ADC_READ_AVERAGES + 1 = 11 := rfl
    rw [e11] at hstep
    have hle : (test_pod_check cfg inp s).averageIndex ≤ ADC_READ_AVERAGES := by
      rw [hstep]
      show _ ≤ 10
      omega
    simp only [run, List.length_cons]
    rw [ih _ hle, hstep]
    omega

theorem buffer_lengths_step (cfg : AdcConfig) (inp : Inputs) (s : State) :
    (test_pod_check cfg inp s).averageBufferSQ0.length = s.averageBufferSQ0.length ∧
    (test_pod_check cfg inp s).averageBufferSQ1.length = s.averageBufferSQ1.length ∧
    (test_pod_check cfg inp s).averageBufferSQ2.length = s.averageBufferSQ2.length := by
  by_cases h : s.averageIndex < ADC_READ_AVERAGES
  · rw [test_pod_check_record cfg inp s h]
    simp
  · obtain ⟨_, f0, f1, f2⟩ := test_pod_check_classify_frame cfg inp s (Nat.le_of_not_lt h)
    rw [f0, f1, f2]
    exact ⟨rfl, rfl, rfl⟩

theorem buffer_lengths_run (cfg : AdcConfig) (inputs : List Inputs) (s : State) :
    (run cfg s inputs).averageBufferSQ0.length = s.averageBufferSQ0.length ∧
    (run cfg s inputs).averageBufferSQ1.length = s.averageBufferSQ1.length ∧
    (run cfg s inputs).averageBufferSQ2.length = s.averageBufferSQ2.length := by
  induction inputs generalizing s with
  | nil => exact ⟨rfl, rfl, rfl⟩
  | cons inp rest ih =>
    obtain ⟨a0, a1, a2⟩ := ih (test_pod_check cfg inp s)
    obtain ⟨b0, b1, b2⟩ := buffer_lengths_step cfg inp s
    simp only [run]
    exact ⟨a0.trans b0, a1.trans b1, a2.trans b2⟩

theorem status_lt_eight_step (cfg : AdcConfig) (inp : Inputs) (s : State)
    (h : s.status_field < 8) : (test_pod_check cfg inp s).status_field < 8 := by
  by_cases hr : s.averageIndex < ADC_READ_AVERAGES
  · rw [status_of_record cfg inp s hr]; exact h
  · have e : (8 : Nat) = 2 ^ 3 := by norm_num
    rw [e]
    apply Nat.lt_pow_two_of_testBit
    intro i hi
    rw [status_testBit_of_classify cfg inp s i (Nat.le_of_not_lt hr)]
    have e0 : ¬ i = 0 := by omega
    have e1 : ¬ i = 1 := by omega
    have e2 : ¬ i = 2 := by omega
    have hs : s.status_field.testBit i = false := by
      apply Nat.testBit_lt_two_pow
      calc s.status_field < 2 ^ 3 := by omega
        _ ≤ 2 ^ i := Nat.pow_le_pow_right (by norm_num) hi
    simp [e0, e1, e2, hs]

theorem status_lt_eight_run (cfg : AdcConfig) (inputs : List Inputs) (s : State)
    (h : s.status_field < 8) : (run cfg s inputs).status_field < 8 := by
  induction inputs generalizing s with
  | nil => exact h
  | cons inp rest ih => exact ih _ (status_lt_eight_step cfg inp s h)

theorem windowOk_set (buf : List Nat) (i v : Nat) (h : WindowOk buf) (hv : v < 2 ^ 16) :
    WindowOk (buf.set i v) := by
  refine ⟨by rw [List.length_set]; exact h.1, ?_⟩
  intro x hx
  rcases List.mem_or_eq_of_mem_set hx with hm | he
  · exact h.2 x hm
  · rw [he]; exact hv

theorem windowOk_step (cfg : AdcConfig) (inp : Inputs) (s : State)
    (h : WindowOk s.averageBufferSQ0 ∧ WindowOk s.averageBufferSQ1 ∧
      WindowOk s.averageBufferSQ2) :
    WindowOk (test_pod_check cfg inp s).averageBufferSQ0 ∧
    WindowOk (test_pod_check cfg inp s).averageBufferSQ1 ∧
    WindowOk (test_pod_check cfg inp s).averageBufferSQ2 := by
  by_cases hr : s.averageIndex < ADC_READ_AVERAGES
  · rw [test_pod_check_record cfg inp s hr]
    exact ⟨windowOk_set _ _ _ h.1 (Nat.mod_lt _ (by norm_num)),
      windowOk_set _ _ _ h.2.1 (Nat.mod_lt _ (by norm_num)),
      windowOk_set _ _ _ h.2.2 (Nat.mod_lt _ (by norm_num))⟩
  · obtain ⟨_, f0, f1, f2⟩ := test_pod_check_classify_frame cfg inp s (Nat.le_of_not_lt hr)
    rw [f0, f1, f2]
    exact h

/-- In every state reachable from the initial state the three windows are ten slots of
16 bits. -/
theorem windowOk_run (cfg : AdcConfig) (inputs : List Inputs) (s : State)
    (h : WindowOk s.averageBufferSQ0 ∧ WindowOk s.averageBufferSQ1 ∧
      WindowOk s.averageBufferSQ2) :
    WindowOk (run cfg s inputs).averageBufferSQ0 ∧
    WindowOk (run cfg s inputs).averageBufferSQ1 ∧
    WindowOk (run cfg s inputs).averageBufferSQ2 := by
  induction inputs generalizing s with
  | nil => exact h
  | cons inp rest ih => exact ih _ (windowOk_step cfg inp s h)

theorem windowOk_initState :
    WindowOk initState.averageBufferSQ0 ∧ WindowOk initState.averageBufferSQ1 ∧
      WindowOk initState.averageBufferSQ2 := by
  decide

/-- C13: the shared index has period N + 1 = 11.  Starting from the initial state, after `k`
iterations the index is `k mod 11`, so it always lies in `0..10`.  Iteration number `k + 1`
(counting from 1) classifies exactly when the index is 10 at its start, which is exactly when
`k + 1` is a multiple of 11: on such an iteration `test_pod_check` stores no sample and sets
each rail bit of the status field from the truncated mean of that rail's window; on every
other iteration it stores the three samples at slot `k mod 11` and leaves the status field
as it was. -/
theorem C13_index_period_eleven (cfg : AdcConfig) (inputs : List Inputs) (inp : Inputs) :
    (run cfg initState inputs).averageIndex = inputs.length % 11 ∧
    (run cfg initState inputs).averageIndex ≤ 10 ∧
    (¬ (run cfg initState inputs).averageIndex < ADC_READ_AVERAGES ↔
      (run cfg initState inputs).averageIndex = 10) ∧
    (¬ (run cfg initState inputs).averageIndex < ADC_READ_AVERAGES ↔
      (inputs.length + 1) % 11 = 0) ∧
    ((inputs.length + 1) % 11 = 0 →
      ((run cfg initState (inputs ++ [inp])).averageBufferSQ0 =
          (run cfg initState inputs).averageBufferSQ0 ∧
        (run cfg initState (inputs ++ [inp])).averageBufferSQ1 =
          (run cfg initState inputs).averageBufferSQ1 ∧
        (run cfg initState (inputs ++ [inp])).averageBufferSQ2 =
          (run cfg initState inputs).averageBufferSQ2) ∧
      (run cfg initState (inputs ++ [inp])).status_field.testBit 0 =
        decide (((truncMean (run cfg initState inputs).averageBufferSQ0 * cfg.ADC_MV) % 2 ^ 32)
              >>> cfg.ADC_BITS < HIGH_THRESH_5v ∧
          ((truncMean (run cfg initState inputs).averageBufferSQ0 * cfg.ADC_MV) % 2 ^ 32)
              >>> cfg.ADC_BITS > LOW_THRESH_5v) ∧
      (run cfg initState (inputs ++ [inp])).status_field.testBit 1 =
        decide (((truncMean (run cfg initState inputs).averageBufferSQ1 * cfg.ADC_MV) % 2 ^ 32)
              >>> cfg.ADC_BITS < HIGH_THRESH_VIO ∧
          ((truncMean (run cfg initState inputs).averageBufferSQ1 * cfg.ADC_MV) % 2 ^ 32)
              >>> cfg.ADC_BITS > LOW_THRESH_VIO) ∧
      (run cfg initState (inputs ++ [inp])).status_field.testBit 2 =
        decide (((truncMean (run cfg initState inputs).averageBufferSQ2 * cfg.ADC_MV) % 2 ^ 32)
              >>> cfg.ADC_BITS < HIGH_THRESH_3v3 ∧
          ((truncMean (run cfg initState inputs).averageBufferSQ2 * cfg.ADC_MV) % 2 ^ 32)
              >>> cfg.ADC_BITS > LOW_THRESH_3v3)) ∧
    ((inputs.length + 1) % 11 ≠ 0 →
      (run cfg initState (inputs ++ [inp])).averageBufferSQ0 =
        (run cfg initState inputs).averageBufferSQ0.set (inputs.length % 11)
          (inp.adcSQ0 % 2 ^ 16) ∧
      (run cfg initState (inputs ++ [inp])).averageBufferSQ1 =
        (run cfg initState inputs).averageBufferSQ1.set (inputs.length % 11)
          (inp.adcSQ1 % 2 ^ 16) ∧
      (run cfg initState (inputs ++ [inp])).averageBufferSQ2 =
        (run cfg initState inputs).averageBufferSQ2.set (inputs.length % 11)
          (inp.adcSQ2 % 2 ^ 16) ∧
      (run cfg initState (inputs ++ [inp])).status_field =
        (run cfg initState inputs).status_field) := by
  have h := averageIndex_run cfg inputs initState (by decide)
  have h0 : initState.averageIndex = 0 := rfl
  rw [h0, Nat.zero_add] at h
  have hN : ADC_READ_AVERAGES = 10 := rfl
  have rlast : run cfg initState (inputs ++ [inp]) =
      test_pod_check cfg inp (run cfg initState inputs) := by
    rw [run_append]; rfl
  obtain ⟨w0, w1, w2⟩ := windowOk_run cfg inputs initState windowOk_initState
  refine ⟨h, ?_, ?_, ?_, ?_, ?_⟩
  · rw [h]; omega
  · rw [hN, h]; omega
  · rw [hN, h]; omega
  · intro hk
    have hc : ADC_READ_AVERAGES ≤ (run cfg initState inputs).averageIndex := by
      rw [hN, h]; omega
    obtain ⟨_, f0, f1, f2⟩ := test_pod_check_classify_frame cfg inp _ hc
    rw [rlast]
    exact ⟨⟨f0, f1, f2⟩, status_bits_of_classify cfg inp _ hc w0 w1 w2⟩
  · intro hk
    have hr : (run cfg initState inputs).averageIndex < ADC_READ_AVERAGES := by
      rw [hN, h]; omega
    rw [rlast, test_pod_check_record cfg inp _ hr, h]
    exact ⟨rfl, rfl, rfl, rfl⟩

/-- C15: in every state reachable from the initial state the status field is below 8 (bits
3..7 are zero), so the mask `& 0x7` leaves it as it is and in direct mode (mode pin high) the
value driven on `PORTB` is the status field itself. -/
theorem C15_status_is_three_bits (cfg : AdcConfig) (inputs : List Inputs) :
    (run cfg initState inputs).status_field < 8 ∧
    (∀ i, 3 ≤ i → (run cfg initState inputs).status_field.testBit i = false) ∧
    (run cfg initState inputs).status_field &&& 0x7 = (run cfg initState inputs).status_field ∧
    (∀ a0 a1 a2 : Nat,
      (run cfg initState (inputs ++ [Inputs.mk a0 a1 a2 true])).PORTB =
        (run cfg initState (inputs ++ [Inputs.mk a0 a1 a2 true])).status_field) := by
  have h := status_lt_eight_run cfg inputs initState (by decide)
  refine ⟨h, ?_, ?_, ?_⟩
  · intro i hi
    apply Nat.testBit_lt_two_pow
    calc (run cfg initState inputs).status_field < 2 ^ 3 := by omega
      _ ≤ 2 ^ i := Nat.pow_le_pow_right (by norm_num) hi
  · have e : (0x7 : Nat) = 2 ^ 3 - 1 := by norm_num
    rw [e, Nat.and_pow_two_sub_one_eq_mod]
    exact Nat.mod_eq_of_lt (by omega)
  · intro a0 a1 a2
    have h' := status_lt_eight_run cfg (inputs ++ [Inputs.mk a0 a1 a2 true]) initState
      (by decide)
    have hp : (run cfg initState (inputs ++ [Inputs.mk a0 a1 a2 true])).PORTB =
        portValue (run cfg initState (inputs ++ [Inputs.mk a0 a1 a2 true])).status_field
          true := by
      rw [run_append]; rfl
    rw [hp]
    exact (portValue_of_lt_eight _ h').1



/-! ## Arithmetic of the conversion and the thresholds -/

/-- C17: for a window of ten 16-bit samples, a scale factor `ADC_MV ≤ 65535` and a shift
`ADC_BITS < 32`, the 32-bit computation of the millivolt value equals
`floor (mean * ADC_MV / 2 ^ ADC_BITS)` with `mean` the truncated integer mean of the window;
the product `mean * ADC_MV` stays below `2 ^ 32`, so the multiplication does not wrap. -/
theorem C17_millivolts_exact (cfg : AdcConfig) (buf : List Nat) (h : WindowOk buf)
    (hmv : cfg.ADC_MV ≤ 65535) (hbits : cfg.ADC_BITS < 32) :
    railMillivolts cfg buf = (buf.sum / 10 * cfg.ADC_MV) / 2 ^ cfg.ADC_BITS ∧
    railAverage buf = buf.sum / 10 ∧
    railAverage buf * cfg.ADC_MV < 2 ^ 32 ∧
    railMillivolts cfg buf < 2 ^ 32 := by
  have hm := truncMean_le buf h
  have ha := railAverage_eq_truncMean buf h
  have hprod : truncMean buf * cfg.ADC_MV < 2 ^ 32 :=
    calc truncMean buf * cfg.ADC_MV ≤ (2 ^ 16 - 1) * 65535 := Nat.mul_le_mul hm hmv
      _ < 2 ^ 32 := by norm_num
  have _hb : cfg.ADC_BITS < 32 := hbits
  refine ⟨?_, ha, by rw [ha]; exact hprod, ?_⟩
  · rw [railMillivolts_eq cfg buf h hmv, Nat.shiftRight_eq_div_pow]
    rfl
  · rw [railMillivolts_eq cfg buf h hmv, Nat.shiftRight_eq_div_pow]
    exact Nat.lt_of_le_of_lt (Nat.div_le_self _ _) hprod

theorem C17_millivolts_exact_witness :
    (WindowOk [65535, 65535, 65535, 65535, 65535, 65535, 65535, 65535, 65535, 65535] ∧
      (AdcConfig.mk 65535 0).ADC_MV ≤ 65535 ∧ (AdcConfig.mk 65535 0).ADC_BITS < 32) ∧
    railMillivolts (AdcConfig.mk 65535 0)
      [65535, 65535, 65535, 65535, 65535, 65535, 65535, 65535, 65535, 65535] =
      ([65535, 65535, 65535, 65535, 65535, 65535, 65535, 65535, 65535, 65535].sum / 10 * 65535)
        / 2 ^ 0 :=
  ⟨⟨by decide, by decide, by decide⟩,
    (C17_millivolts_exact (AdcConfig.mk 65535 0)
      [65535, 65535, 65535, 65535, 65535, 65535, 65535, 65535, 65535, 65535]
      (by decide) (by decide) (by decide)).1⟩

/-- C18: each rail's pair of thresholds is a symmetric tolerance band around one nominal
divided voltage: there is a rational nominal value `m` (in mV) with the low threshold equal to
`m * (1 - t)` and the high threshold equal to `m * (1 + t)`, each rounded to the nearest
integer, where `t` is 10% for 5V (897, 1096) and 5% for VIO (340, 376) and 3.3V (624, 690). -/
theorem C18_thresholds_symmetric_band :
    (∃ m : ℚ, round (m * (1 - 10 / 100)) = (LOW_THRESH_5v : ℤ) ∧
      round (m * (1 + 10 / 100)) = (HIGH_THRESH_5v : ℤ)) ∧
    (∃ m : ℚ, round (m * (1 - 5 / 100)) = ( LOW_THRESH_VIO : ℤ) ∧
      round (m * (1 + 5 / 100)) = ( HIGH_THRESH_VIO : ℤ)) ∧
    (∃ m : ℚ, round (m * (1 - 5 / 100)) = (LOW_THRESH_3v3 : ℤ) ∧
      round (m * (1 + 5 / 100)) = (HIGH_THRESH_3v3 : ℤ)) := by
  refine ⟨⟨1993 / 2, ?_, ?_⟩, ⟨358, ?_, ?_⟩, ⟨657, ?_, ?_⟩⟩ <;>
    (rw [round_eq, Int.floor_eq_iff]
     simp only [LOW_THRESH_5v, HIGH_THRESH_5v, LOW_THRESH_VIO, HIGH_THRESH_VIO,
       LOW_THRESH_3v3, HIGH_THRESH_3v3]
     norm_num)



/-! ## Blocks of eleven iterations -/

theorem railBlock_classify_adc (cfg : AdcConfig) (idx : Nat) (buf : List Nat)
    (adc adc' sf mask high low : Nat) (h : ADC_READ_AVERAGES ≤ idx) :
    railBlock cfg idx buf adc sf mask high low = railBlock cfg idx buf adc' sf mask high low := by
  have h' : ¬ idx < ADC_READ_AVERAGES := Nat.not_lt.mpr h
  simp only [railBlock, h', if_false]

/-- A classifying iteration reads none of the three samples: only the mode pin matters. -/
theorem test_pod_check_classify_samples (cfg : AdcConfig) (inp inp' : Inputs) (s : State)
    (h : ADC_READ_AVERAGES ≤ s.averageIndex) (hpin : inp'.PINA7 = inp.PINA7) :
    test_pod_check cfg inp' s = test_pod_check cfg inp s := by
  simp only [test_pod_check, hpin,
    railBlock_classify_adc cfg s.averageIndex _ inp'.adcSQ0 inp.adcSQ0 _ _ _ _ h,
    railBlock_classify_adc cfg s.averageIndex _ inp'.adcSQ1 inp.adcSQ1 _ _ _ _ h,
    railBlock_classify_adc cfg s.averageIndex _ inp'.adcSQ2 inp.adcSQ2 _ _ _ _ h]

/-- C14: block averaging.  For `j ≥ 1`, split the first `11 * j` iterations from the initial
state into the `11 * (j - 1)` earlier ones, the block of ten iterations
`11 * (j - 1) + 1 .. 11 * j - 1`, and iteration `11 * j`.  Before iteration `11 * j` each
window holds exactly the block's ten samples of its rail, in slot order, and the iteration
classifies: the average it computes is the truncated mean of those ten samples, and each
rail bit of the status field after it is the window test on that mean scaled by `ADC_MV`
(in 32 bits) and shifted by `ADC_BITS`.  The iteration stores nothing, and the state after
it is the same for any other samples presented on it. -/
theorem C14_block_averaging (cfg : AdcConfig) (j : Nat) (pre blk : List Inputs)
    (last other : Inputs) (hj : 1 ≤ j) (hpre : pre.length = 11 * (j - 1))
    (hblk : blk.length = ADC_READ_AVERAGES)
    (h16 : ∀ x ∈ blk, x.adcSQ0 < 2 ^ 16 ∧ x.adcSQ1 < 2 ^ 16 ∧ x.adcSQ2 < 2 ^ 16) :
    (pre ++ blk ++ [last]).length = 11 * j ∧
    (¬ (run cfg initState (pre ++ blk)).averageIndex < ADC_READ_AVERAGES ∧
      (run cfg initState (pre ++ blk)).averageBufferSQ0 = blk.map Inputs.adcSQ0 ∧
      (run cfg initState (pre ++ blk)).averageBufferSQ1 = blk.map Inputs.adcSQ1 ∧
      (run cfg initState (pre ++ blk)).averageBufferSQ2 = blk.map Inputs.adcSQ2) ∧
    (railAverage (run cfg initState (pre ++ blk)).averageBufferSQ0
        = truncMean (blk.map Inputs.adcSQ0) ∧
      railAverage (run cfg initState (pre ++ blk)).averageBufferSQ1
        = truncMean (blk.map Inputs.adcSQ1) ∧
      railAverage (run cfg initState (pre ++ blk)).averageBufferSQ2
        = truncMean (blk.map Inputs.adcSQ2)) ∧
    ((run cfg initState (pre ++ blk ++ [last])).status_field.testBit 0 =
        decide (((truncMean (blk.map Inputs.adcSQ0) * cfg.ADC_MV) % 2 ^ 32) >>> cfg.ADC_BITS
            < HIGH_THRESH_5v ∧
          ((truncMean (blk.map Inputs.adcSQ0) * cfg.ADC_MV) % 2 ^ 32) >>> cfg.ADC_BITS
            > LOW_THRESH_5v) ∧
      (run cfg initState (pre ++ blk ++ [last])).status_field.testBit 1 =
        decide (((truncMean (blk.map Inputs.adcSQ1) * cfg.ADC_MV) % 2 ^ 32) >>> cfg.ADC_BITS
            < HIGH_THRESH_VIO ∧
          ((truncMean (blk.map Inputs.adcSQ1) * cfg.ADC_MV) % 2 ^ 32) >>> cfg.ADC_BITS
            > LOW_THRESH_VIO) ∧
      (run cfg initState (pre ++ blk ++ [last])).status_field.testBit 2 =
        decide (((truncMean (blk.map Inputs.adcSQ2) * cfg.ADC_MV) % 2 ^ 32) >>> cfg.ADC_BITS
            < HIGH_THRESH_3v3 ∧
          ((truncMean (blk.map Inputs.adcSQ2) * cfg.ADC_MV) % 2 ^ 32) >>> cfg.ADC_BITS
            > LOW_THRESH_3v3)) ∧
    ((run cfg initState (pre ++ blk ++ [last])).averageBufferSQ0 = blk.map Inputs.adcSQ0 ∧
      (run cfg initState (pre ++ blk ++ [last])).averageBufferSQ1 = blk.map Inputs.adcSQ1 ∧
      (run cfg initState (pre ++ blk ++ [last])).averageBufferSQ2 = blk.map Inputs.adcSQ2) ∧
    (other.PINA7 = last.PINA7 →
      run cfg initState (pre ++ blk ++ [other]) = run cfg initState (pre ++ blk ++ [last])) := by
  have hN : ADC_READ_AVERAGES = 10 := rfl
  have g0 : ∀ x ∈ blk, Inputs.adcSQ0 x < 2 ^ 16 := fun x hx => (h16 x hx).1
  have g1 : ∀ x ∈ blk, Inputs.adcSQ1 x < 2 ^ 16 := fun x hx => (h16 x hx).2.1
  have g2 : ∀ x ∈ blk, Inputs.adcSQ2 x < 2 ^ 16 := fun x hx => (h16 x hx).2.2
  obtain ⟨i0, _, l0, l1, l2⟩ := initState_lengths
  -- the state at the start of the block
  have hidx : (run cfg initState pre).averageIndex = 0 := by
    rw [averageIndex_run cfg pre initState (by decide), i0, hpre]
    omega
  obtain ⟨p0, p1, p2⟩ := buffer_lengths_run cfg pre initState
  obtain ⟨a, _, c0, c1, c2⟩ := run_block cfg blk (run cfg initState pre) hidx hblk
    (p0.trans l0) (p1.trans l1) (p2.trans l2)
  rw [← run_append] at a c0 c1 c2
  rw [map_mod_eq_of_lt Inputs.adcSQ0 blk g0] at c0
  rw [map_mod_eq_of_lt Inputs.adcSQ1 blk g1] at c1
  rw [map_mod_eq_of_lt Inputs.adcSQ2 blk g2] at c2
  have hc : ADC_READ_AVERAGES ≤ (run cfg initState (pre ++ blk)).averageIndex :=
    Nat.le_of_eq a.symm
  have rlast : ∀ x : Inputs, run cfg initState (pre ++ blk ++ [x]) =
      test_pod_check cfg x (run cfg initState (pre ++ blk)) := by
    intro x; rw [run_append]; rfl
  obtain ⟨_, f0, f1, f2⟩ := test_pod_check_classify_frame cfg last _ hc
  have hbits := status_bits_of_classify cfg last (run cfg initState (pre ++ blk)) hc
    (by rw [c0]; exact windowOk_map _ blk hblk g0)
    (by rw [c1]; exact windowOk_map _ blk hblk g1)
    (by rw [c2]; exact windowOk_map _ blk hblk g2)
  rw [c0, c1, c2, ← rlast last] at hbits
  refine ⟨?_, ⟨Nat.not_lt.mpr hc, c0, c1, c2⟩, ⟨?_, ?_, ?_⟩, hbits, ⟨?_, ?_, ?_⟩, ?_⟩
  · simp only [List.length_append, List.length_singleton, hpre, hblk, hN]
    omega
  · rw [c0]; exact railAverage_eq_truncMean _ (windowOk_map _ blk hblk g0)
  · rw [c1]; exact railAverage_eq_truncMean _ (windowOk_map _ blk hblk g1)
  · rw [c2]; exact railAverage_eq_truncMean _ (windowOk_map _ blk hblk g2)
  · rw [rlast, f0, c0]
  · rw [rlast, f1, c1]
  · rw [rlast, f2, c2]
  · intro hpin
    rw [rlast, rlast]
    exact test_pod_check_classify_samples cfg last other _ hc hpin

theorem C14_block_averaging_witness :
    ((1 ≤ 2) ∧
      (List.replicate 10 (constInput 0 0 0 true) ++ [constInput 5 5 5 true]).length = 11 * (2 - 1) ∧
      (List.replicate 10 (constInput 931 350 606 true)).length = ADC_READ_AVERAGES) ∧
    (run sampleConfig initState
      (List.replicate 10 (constInput 0 0 0 true) ++ [constInput 5 5 5 true] ++
        List.replicate 10 (constInput 931 350 606 true) ++
        [constInput 65535 65535 65535 true])).status_field.testBit 0 = true ∧
    run sampleConfig initState
      (List.replicate 10 (constInput 0 0 0 true) ++ [constInput 5 5 5 true] ++
        List.replicate 10 (constInput 931 350 606 true) ++ [constInput 1 2 3 true]) =
    run sampleConfig initState
      (List.replicate 10 (constInput 0 0 0 true) ++ [constInput 5 5 5 true] ++
        List.replicate 10 (constInput 931 350 606 true) ++
        [constInput 65535 65535 65535 true]) :=
  ⟨⟨by decide, by decide, by decide⟩,
    ((C14_block_averaging sampleConfig 2
      (List.replicate 10 (constInput 0 0 0 true) ++ [constInput 5 5 5 true])
      (List.replicate 10 (constInput 931 350 606 true))
      (constInput 65535 65535 65535 true) (constInput 1 2 3 true)
      (by decide) (by decide) (by decide) (by decide)).2.2.2.1.1).trans (by decide),
    (C14_block_averaging sampleConfig 2
      (List.replicate 10 (constInput 0 0 0 true) ++ [constInput 5 5 5 true])
      (List.replicate 10 (constInput 931 350 606 true))
      (constInput 65535 65535 65535 true) (constInput 1 2 3 true)
      (by decide) (by decide) (by decide) (by decide)).2.2.2.2.2 rfl⟩

/-- C16: window frame.  With windows of ten slots and 16-bit samples, an iteration with the
index `c < N` writes within bounds and leaves each window holding its own rail's new sample at
slot `c` and its previous content at every other slot; an iteration with the index at `N`
leaves all three windows unchanged. -/
theorem C16_window_frame (cfg : AdcConfig) (inp : Inputs) (s : State)
    (l0 : s.averageBufferSQ0.length = ADC_READ_AVERAGES)
    (l1 : s.averageBufferSQ1.length = ADC_READ_AVERAGES)
    (l2 : s.averageBufferSQ2.length = ADC_READ_AVERAGES)
    (h16 : inp.adcSQ0 < 2 ^ 16 ∧ inp.adcSQ1 < 2 ^ 16 ∧ inp.adcSQ2 < 2 ^ 16) :
    (s.averageIndex < ADC_READ_AVERAGES →
      (s.averageIndex < s.averageBufferSQ0.length ∧
        s.averageIndex < s.averageBufferSQ1.length ∧
        s.averageIndex < s.averageBufferSQ2.length) ∧
      (∀ j, (test_pod_check cfg inp s).averageBufferSQ0[j]? =
        if j = s.averageIndex then some inp.adcSQ0 else s.averageBufferSQ0[j]?) ∧
      (∀ j, (test_pod_check cfg inp s).averageBufferSQ1[j]? =
        if j = s.averageIndex then some inp.adcSQ1 else s.averageBufferSQ1[j]?) ∧
      (∀ j, (test_pod_check cfg inp s).averageBufferSQ2[j]? =
        if j = s.averageIndex then some inp.adcSQ2 else s.averageBufferSQ2[j]?) ∧
      (test_pod_check cfg inp s).averageBufferSQ0.length = ADC_READ_AVERAGES ∧
      (test_pod_check cfg inp s).averageBufferSQ1.length = ADC_READ_AVERAGES ∧
      (test_pod_check cfg inp s).averageBufferSQ2.length = ADC_READ_AVERAGES) ∧
    (s.averageIndex = ADC_READ_AVERAGES →
      (test_pod_check cfg inp s).averageBufferSQ0 = s.averageBufferSQ0 ∧
      (test_pod_check cfg inp s).averageBufferSQ1 = s.averageBufferSQ1 ∧
      (test_pod_check cfg inp s).averageBufferSQ2 = s.averageBufferSQ2) := by
  obtain ⟨b0, b1, b2⟩ := buffer_lengths_step cfg inp s
  constructor
  · intro h
    have e0 : inp.adcSQ0 % 2 ^ 16 = inp.adcSQ0 := Nat.mod_eq_of_lt h16.1
    have e1 : inp.adcSQ1 % 2 ^ 16 = inp.adcSQ1 := Nat.mod_eq_of_lt h16.2.1
    have e2 : inp.adcSQ2 % 2 ^ 16 = inp.adcSQ2 := Nat.mod_eq_of_lt h16.2.2
    have i0 : s.averageIndex < s.averageBufferSQ0.length := by rw [l0]; exact h
    have i1 : s.averageIndex < s.averageBufferSQ1.length := by rw [l1]; exact h
    have i2 : s.averageIndex < s.averageBufferSQ2.length := by rw [l2]; exact h
    refine ⟨⟨i0, i1, i2⟩, ?_, ?_, ?_, b0.trans l0, b1.trans l1, b2.trans l2⟩
    · intro j
      rw [test_pod_check_record cfg inp s h, e0]
      show (s.averageBufferSQ0.set s.averageIndex inp.adcSQ0)[j]? = _
      by_cases hj : j = s.averageIndex
      · subst hj; simp [i0]
      · have hj' : ¬ s.averageIndex = j := fun e => hj e.symm
        simp [List.getElem?_set, hj, hj']
    · intro j
      rw [test_pod_check_record cfg inp s h, e1]
      show (s.averageBufferSQ1.set s.averageIndex inp.adcSQ1)[j]? = _
      by_cases hj : j = s.averageIndex
      · subst hj; simp [i1]
      · have hj' : ¬ s.averageIndex = j := fun e => hj e.symm
        simp [List.getElem?_set, hj, hj']
    · intro j
      rw [test_pod_check_record cfg inp s h, e2]
      show (s.averageBufferSQ2.set s.averageIndex inp.adcSQ2)[j]? = _
      by_cases hj : j = s.averageIndex
      · subst hj; simp [i2]
      · have hj' : ¬ s.averageIndex = j := fun e => hj e.symm
        simp [List.getElem?_set, hj, hj']
  · intro h
    exact (test_pod_check_classify_frame cfg inp s (Nat.le_of_eq h.symm)).2

theorem C16_window_frame_witness :
    ((fillingState 3 0).averageBufferSQ0.length = ADC_READ_AVERAGES ∧
      (fillingState 3 0).averageIndex < ADC_READ_AVERAGES) ∧
    (test_pod_check sampleConfig (constInput 931 350 606 true) (fillingState 3 0)).averageBufferSQ0[3]?
      = some 931 :=
  ⟨⟨by decide, by decide⟩,
    ((C16_window_frame sampleConfig (constInput 931 350 606 true) (fillingState 3 0)
      (by decide) (by decide) (by decide) (by decide)).1 (by decide)).2.1 3⟩

end TestPod
